import Mathlib

set_option maxRecDepth 4000

/-!
Verification of the commit-message rewriting callback in src/msg_cb.py.

The source program defines message_callback(commit), which first loads the
standard regular-expression module re, then decodes commit.message as UTF-8
with errors equal to ignore, substitutes the pattern (?i)\bmilo\b with the
replacement cleanup, and assigns the UTF-8 encoding of the result back to
commit.message.

The shallow embedding below models commit messages as lists of byte values
(`List Nat`), decoded text as lists of Unicode code points (`List Nat`), and
the three library primitives the callback uses:

* `pyDecodeUtf8Ignore` — CPython's UTF-8 decoder with errors equal to ignore:
  a maximal ill-formed subsequence is skipped (dropped) and decoding resumes,
  per the maximal-subpart rule the CPython codec implements.
* `miloSub` — the substitution performed by the regular expression
  (?i)\bmilo\b with replacement cleanup: a left-to-right, non-overlapping
  scan that at each position tries to match the literal target
  case-insensitively between word boundaries, emits the replacement on a
  match and advances past it, and otherwise copies one character.
* `utf8Encode` — standard UTF-8 encoding of a list of scalar values;
  `utf8EncodeStrict` is the fallible model of Python's str.encode, which
  raises exactly when the text contains a lone surrogate.

Word characters (for the boundary assertion \b) are CPython's Unicode
word-character class (underscore or Py_UNICODE_ISALNUM), embedded as the
complete table of its code-point ranges, so the boundary semantics of the
model coincide with the engine on every character.
-/

/-- Closed code-point ranges of the word-character class \\w of CPython's
regular-expression engine: underscore together with the Unicode alphanumeric
characters (Py_UNICODE_ISALNUM).  The table is the exact extension of that
class over the whole code space, tabulated from the engine (Unicode
character database 14.0.0), so the boundary assertion \\b below agrees with
the program on every character, including Hebrew, Arabic, Devanagari,
enclosed numerics and all other scripts. -/
def wordRanges : List (Nat × Nat) := [
  (0x30, 0x39), (0x41, 0x5A), (0x5F, 0x5F), (0x61, 0x7A), (0xAA, 0xAA), (0xB2, 0xB3), (0xB5,
  0xB5), (0xB9, 0xBA), (0xBC, 0xBE), (0xC0, 0xD6), (0xD8, 0xF6), (0xF8, 0x2C1), (0x2C6, 0x2D1),
  (0x2E0, 0x2E4), (0x2EC, 0x2EC), (0x2EE, 0x2EE), (0x370, 0x374), (0x376, 0x377), (0x37A,
  0x37D), (0x37F, 0x37F), (0x386, 0x386), (0x388, 0x38A), (0x38C, 0x38C), (0x38E, 0x3A1),
  (0x3A3, 0x3F5), (0x3F7, 0x481), (0x48A, 0x52F), (0x531, 0x556), (0x559, 0x559), (0x560,
  0x588), (0x5D0, 0x5EA), (0x5EF, 0x5F2), (0x620, 0x64A), (0x660, 0x669), (0x66E, 0x66F),
  (0x671, 0x6D3), (0x6D5, 0x6D5), (0x6E5, 0x6E6), (0x6EE, 0x6FC), (0x6FF, 0x6FF), (0x710,
  0x710), (0x712, 0x72F), (0x74D, 0x7A5), (0x7B1, 0x7B1), (0x7C0, 0x7EA), (0x7F4, 0x7F5),
  (0x7FA, 0x7FA), (0x800, 0x815), (0x81A, 0x81A), (0x824, 0x824), (0x828, 0x828), (0x840,
  0x858), (0x860, 0x86A), (0x870, 0x887), (0x889, 0x88E), (0x8A0, 0x8C9), (0x904, 0x939),
  (0x93D, 0x93D), (0x950, 0x950), (0x958, 0x961), (0x966, 0x96F), (0x971, 0x980), (0x985,
  0x98C), (0x98F, 0x990), (0x993, 0x9A8), (0x9AA, 0x9B0), (0x9B2, 0x9B2), (0x9B6, 0x9B9),
  (0x9BD, 0x9BD), (0x9CE, 0x9CE), (0x9DC, 0x9DD), (0x9DF, 0x9E1), (0x9E6, 0x9F1), (0x9F4,
  0x9F9), (0x9FC, 0x9FC), (0xA05, 0xA0A), (0xA0F, 0xA10), (0xA13, 0xA28), (0xA2A, 0xA30),
  (0xA32, 0xA33), (0xA35, 0xA36), (0xA38, 0xA39), (0xA59, 0xA5C), (0xA5E, 0xA5E), (0xA66,
  0xA6F), (0xA72, 0xA74), (0xA85, 0xA8D), (0xA8F, 0xA91), (0xA93, 0xAA8), (0xAAA, 0xAB0),
  (0xAB2, 0xAB3), (0xAB5, 0xAB9), (0xABD, 0xABD), (0xAD0, 0xAD0), (0xAE0, 0xAE1), (0xAE6,
  0xAEF), (0xAF9, 0xAF9), (0xB05, 0xB0C), (0xB0F, 0xB10), (0xB13, 0xB28), (0xB2A, 0xB30),
  (0xB32, 0xB33), (0xB35, 0xB39), (0xB3D, 0xB3D), (0xB5C, 0xB5D), (0xB5F, 0xB61), (0xB66,
  0xB6F), (0xB71, 0xB77), (0xB83, 0xB83), (0xB85, 0xB8A), (0xB8E, 0xB90), (0xB92, 0xB95),
  (0xB99, 0xB9A), (0xB9C, 0xB9C), (0xB9E, 0xB9F), (0xBA3, 0xBA4), (0xBA8, 0xBAA), (0xBAE,
  0xBB9), (0xBD0, 0xBD0), (0xBE6, 0xBF2), (0xC05, 0xC0C), (0xC0E, 0xC10), (0xC12, 0xC28),
  (0xC2A, 0xC39), (0xC3D, 0xC3D), (0xC58, 0xC5A), (0xC5D, 0xC5D), (0xC60, 0xC61), (0xC66,
  0xC6F), (0xC78, 0xC7E), (0xC80, 0xC80), (0xC85, 0xC8C), (0xC8E, 0xC90), (0xC92, 0xCA8),
  (0xCAA, 0xCB3), (0xCB5, 0xCB9), (0xCBD, 0xCBD), (0xCDD, 0xCDE), (0xCE0, 0xCE1), (0xCE6,
  0xCEF), (0xCF1, 0xCF2), (0xD04, 0xD0C), (0xD0E, 0xD10), (0xD12, 0xD3A), (0xD3D, 0xD3D),
  (0xD4E, 0xD4E), (0xD54, 0xD56), (0xD58, 0xD61), (0xD66, 0xD78), (0xD7A, 0xD7F), (0xD85,
  0xD96), (0xD9A, 0xDB1), (0xDB3, 0xDBB), (0xDBD, 0xDBD), (0xDC0, 0xDC6), (0xDE6, 0xDEF),
  (0xE01, 0xE30), (0xE32, 0xE33), (0xE40, 0xE46), (0xE50, 0xE59), (0xE81, 0xE82), (0xE84,
  0xE84), (0xE86, 0xE8A), (0xE8C, 0xEA3), (0xEA5, 0xEA5), (0xEA7, 0xEB0), (0xEB2, 0xEB3),
  (0xEBD, 0xEBD), (0xEC0, 0xEC4), (0xEC6, 0xEC6), (0xED0, 0xED9), (0xEDC, 0xEDF), (0xF00,
  0xF00), (0xF20, 0xF33), (0xF40, 0xF47), (0xF49, 0xF6C), (0xF88, 0xF8C), (0x1000, 0x102A),
  (0x103F, 0x1049), (0x1050, 0x1055), (0x105A, 0x105D), (0x1061, 0x1061), (0x1065, 0x1066),
  (0x106E, 0x1070), (0x1075, 0x1081), (0x108E, 0x108E), (0x1090, 0x1099), (0x10A0, 0x10C5),
  (0x10C7, 0x10C7), (0x10CD, 0x10CD), (0x10D0, 0x10FA), (0x10FC, 0x1248), (0x124A, 0x124D),
  (0x1250, 0x1256), (0x1258, 0x1258), (0x125A, 0x125D), (0x1260, 0x1288), (0x128A, 0x128D),
  (0x1290, 0x12B0), (0x12B2, 0x12B5), (0x12B8, 0x12BE), (0x12C0, 0x12C0), (0x12C2, 0x12C5),
  (0x12C8, 0x12D6), (0x12D8, 0x1310), (0x1312, 0x1315), (0x1318, 0x135A), (0x1369, 0x137C),
  (0x1380, 0x138F), (0x13A0, 0x13F5), (0x13F8, 0x13FD), (0x1401, 0x166C), (0x166F, 0x167F),
  (0x1681, 0x169A), (0x16A0, 0x16EA), (0x16EE, 0x16F8), (0x1700, 0x1711), (0x171F, 0x1731),
  (0x1740, 0x1751), (0x1760, 0x176C), (0x176E, 0x1770), (0x1780, 0x17B3), (0x17D7, 0x17D7),
  (0x17DC, 0x17DC), (0x17E0, 0x17E9), (0x17F0, 0x17F9), (0x1810, 0x1819), (0x1820, 0x1878),
  (0x1880, 0x1884), (0x1887, 0x18A8), (0x18AA, 0x18AA), (0x18B0, 0x18F5), (0x1900, 0x191E),
  (0x1946, 0x196D), (0x1970, 0x1974), (0x1980, 0x19AB), (0x19B0, 0x19C9), (0x19D0, 0x19DA),
  (0x1A00, 0x1A16), (0x1A20, 0x1A54), (0x1A80, 0x1A89), (0x1A90, 0x1A99), (0x1AA7, 0x1AA7),
  (0x1B05, 0x1B33), (0x1B45, 0x1B4C), (0x1B50, 0x1B59), (0x1B83, 0x1BA0), (0x1BAE, 0x1BE5),
  (0x1C00, 0x1C23), (0x1C40, 0x1C49), (0x1C4D, 0x1C7D), (0x1C80, 0x1C88), (0x1C90, 0x1CBA),
  (0x1CBD, 0x1CBF), (0x1CE9, 0x1CEC), (0x1CEE, 0x1CF3), (0x1CF5, 0x1CF6), (0x1CFA, 0x1CFA),
  (0x1D00, 0x1DBF), (0x1E00, 0x1F15), (0x1F18, 0x1F1D), (0x1F20, 0x1F45), (0x1F48, 0x1F4D),
  (0x1F50, 0x1F57), (0x1F59, 0x1F59), (0x1F5B, 0x1F5B), (0x1F5D, 0x1F5D), (0x1F5F, 0x1F7D),
  (0x1F80, 0x1FB4), (0x1FB6, 0x1FBC), (0x1FBE, 0x1FBE), (0x1FC2, 0x1FC4), (0x1FC6, 0x1FCC),
  (0x1FD0, 0x1FD3), (0x1FD6, 0x1FDB), (0x1FE0, 0x1FEC), (0x1FF2, 0x1FF4), (0x1FF6, 0x1FFC),
  (0x2070, 0x2071), (0x2074, 0x2079), (0x207F, 0x2089), (0x2090, 0x209C), (0x2102, 0x2102),
  (0x2107, 0x2107), (0x210A, 0x2113), (0x2115, 0x2115), (0x2119, 0x211D), (0x2124, 0x2124),
  (0x2126, 0x2126), (0x2128, 0x2128), (0x212A, 0x212D), (0x212F, 0x2139), (0x213C, 0x213F),
  (0x2145, 0x2149), (0x214E, 0x214E), (0x2150, 0x2189), (0x2460, 0x249B), (0x24EA, 0x24FF),
  (0x2776, 0x2793), (0x2C00, 0x2CE4), (0x2CEB, 0x2CEE), (0x2CF2, 0x2CF3), (0x2CFD, 0x2CFD),
  (0x2D00, 0x2D25), (0x2D27, 0x2D27), (0x2D2D, 0x2D2D), (0x2D30, 0x2D67), (0x2D6F, 0x2D6F),
  (0x2D80, 0x2D96), (0x2DA0, 0x2DA6), (0x2DA8, 0x2DAE), (0x2DB0, 0x2DB6), (0x2DB8, 0x2DBE),
  (0x2DC0, 0x2DC6), (0x2DC8, 0x2DCE), (0x2DD0, 0x2DD6), (0x2DD8, 0x2DDE), (0x2E2F, 0x2E2F),
  (0x3005, 0x3007), (0x3021, 0x3029), (0x3031, 0x3035), (0x3038, 0x303C), (0x3041, 0x3096),
  (0x309D, 0x309F), (0x30A1, 0x30FA), (0x30FC, 0x30FF), (0x3105, 0x312F), (0x3131, 0x318E),
  (0x3192, 0x3195), (0x31A0, 0x31BF), (0x31F0, 0x31FF), (0x3220, 0x3229), (0x3248, 0x324F),
  (0x3251, 0x325F), (0x3280, 0x3289), (0x32B1, 0x32BF), (0x3400, 0x4DBF), (0x4E00, 0xA48C),
  (0xA4D0, 0xA4FD), (0xA500, 0xA60C), (0xA610, 0xA62B), (0xA640, 0xA66E), (0xA67F, 0xA69D),
  (0xA6A0, 0xA6EF), (0xA717, 0xA71F), (0xA722, 0xA788), (0xA78B, 0xA7CA), (0xA7D0, 0xA7D1),
  (0xA7D3, 0xA7D3), (0xA7D5, 0xA7D9), (0xA7F2, 0xA801), (0xA803, 0xA805), (0xA807, 0xA80A),
  (0xA80C, 0xA822), (0xA830, 0xA835), (0xA840, 0xA873), (0xA882, 0xA8B3), (0xA8D0, 0xA8D9),
  (0xA8F2, 0xA8F7), (0xA8FB, 0xA8FB), (0xA8FD, 0xA8FE), (0xA900, 0xA925), (0xA930, 0xA946),
  (0xA960, 0xA97C), (0xA984, 0xA9B2), (0xA9CF, 0xA9D9), (0xA9E0, 0xA9E4), (0xA9E6, 0xA9FE),
  (0xAA00, 0xAA28), (0xAA40, 0xAA42), (0xAA44, 0xAA4B), (0xAA50, 0xAA59), (0xAA60, 0xAA76),
  (0xAA7A, 0xAA7A), (0xAA7E, 0xAAAF), (0xAAB1, 0xAAB1), (0xAAB5, 0xAAB6), (0xAAB9, 0xAABD),
  (0xAAC0, 0xAAC0), (0xAAC2, 0xAAC2), (0xAADB, 0xAADD), (0xAAE0, 0xAAEA), (0xAAF2, 0xAAF4),
  (0xAB01, 0xAB06), (0xAB09, 0xAB0E), (0xAB11, 0xAB16), (0xAB20, 0xAB26), (0xAB28, 0xAB2E),
  (0xAB30, 0xAB5A), (0xAB5C, 0xAB69), (0xAB70, 0xABE2), (0xABF0, 0xABF9), (0xAC00, 0xD7A3),
  (0xD7B0, 0xD7C6), (0xD7CB, 0xD7FB), (0xF900, 0xFA6D), (0xFA70, 0xFAD9), (0xFB00, 0xFB06),
  (0xFB13, 0xFB17), (0xFB1D, 0xFB1D), (0xFB1F, 0xFB28), (0xFB2A, 0xFB36), (0xFB38, 0xFB3C),
  (0xFB3E, 0xFB3E), (0xFB40, 0xFB41), (0xFB43, 0xFB44), (0xFB46, 0xFBB1), (0xFBD3, 0xFD3D),
  (0xFD50, 0xFD8F), (0xFD92, 0xFDC7), (0xFDF0, 0xFDFB), (0xFE70, 0xFE74), (0xFE76, 0xFEFC),
  (0xFF10, 0xFF19), (0xFF21, 0xFF3A), (0xFF41, 0xFF5A), (0xFF66, 0xFFBE), (0xFFC2, 0xFFC7),
  (0xFFCA, 0xFFCF), (0xFFD2, 0xFFD7), (0xFFDA, 0xFFDC), (0x10000, 0x1000B), (0x1000D, 0x10026),
  (0x10028, 0x1003A), (0x1003C, 0x1003D), (0x1003F, 0x1004D), (0x10050, 0x1005D), (0x10080,
  0x100FA), (0x10107, 0x10133), (0x10140, 0x10178), (0x1018A, 0x1018B), (0x10280, 0x1029C),
  (0x102A0, 0x102D0), (0x102E1, 0x102FB), (0x10300, 0x10323), (0x1032D, 0x1034A), (0x10350,
  0x10375), (0x10380, 0x1039D), (0x103A0, 0x103C3), (0x103C8, 0x103CF), (0x103D1, 0x103D5),
  (0x10400, 0x1049D), (0x104A0, 0x104A9), (0x104B0, 0x104D3), (0x104D8, 0x104FB), (0x10500,
  0x10527), (0x10530, 0x10563), (0x10570, 0x1057A), (0x1057C, 0x1058A), (0x1058C, 0x10592),
  (0x10594, 0x10595), (0x10597, 0x105A1), (0x105A3, 0x105B1), (0x105B3, 0x105B9), (0x105BB,
  0x105BC), (0x10600, 0x10736), (0x10740, 0x10755), (0x10760, 0x10767), (0x10780, 0x10785),
  (0x10787, 0x107B0), (0x107B2, 0x107BA), (0x10800, 0x10805), (0x10808, 0x10808), (0x1080A,
  0x10835), (0x10837, 0x10838), (0x1083C, 0x1083C), (0x1083F, 0x10855), (0x10858, 0x10876),
  (0x10879, 0x1089E), (0x108A7, 0x108AF), (0x108E0, 0x108F2), (0x108F4, 0x108F5), (0x108FB,
  0x1091B), (0x10920, 0x10939), (0x10980, 0x109B7), (0x109BC, 0x109CF), (0x109D2, 0x10A00),
  (0x10A10, 0x10A13), (0x10A15, 0x10A17), (0x10A19, 0x10A35), (0x10A40, 0x10A48), (0x10A60,
  0x10A7E), (0x10A80, 0x10A9F), (0x10AC0, 0x10AC7), (0x10AC9, 0x10AE4), (0x10AEB, 0x10AEF),
  (0x10B00, 0x10B35), (0x10B40, 0x10B55), (0x10B58, 0x10B72), (0x10B78, 0x10B91), (0x10BA9,
  0x10BAF), (0x10C00, 0x10C48), (0x10C80, 0x10CB2), (0x10CC0, 0x10CF2), (0x10CFA, 0x10D23),
  (0x10D30, 0x10D39), (0x10E60, 0x10E7E), (0x10E80, 0x10EA9), (0x10EB0, 0x10EB1), (0x10F00,
  0x10F27), (0x10F30, 0x10F45), (0x10F51, 0x10F54), (0x10F70, 0x10F81), (0x10FB0, 0x10FCB),
  (0x10FE0, 0x10FF6), (0x11003, 0x11037), (0x11052, 0x1106F), (0x11071, 0x11072), (0x11075,
  0x11075), (0x11083, 0x110AF), (0x110D0, 0x110E8), (0x110F0, 0x110F9), (0x11103, 0x11126),
  (0x11136, 0x1113F), (0x11144, 0x11144), (0x11147, 0x11147), (0x11150, 0x11172), (0x11176,
  0x11176), (0x11183, 0x111B2), (0x111C1, 0x111C4), (0x111D0, 0x111DA), (0x111DC, 0x111DC),
  (0x111E1, 0x111F4), (0x11200, 0x11211), (0x11213, 0x1122B), (0x11280, 0x11286), (0x11288,
  0x11288), (0x1128A, 0x1128D), (0x1128F, 0x1129D), (0x1129F, 0x112A8), (0x112B0, 0x112DE),
  (0x112F0, 0x112F9), (0x11305, 0x1130C), (0x1130F, 0x11310), (0x11313, 0x11328), (0x1132A,
  0x11330), (0x11332, 0x11333), (0x11335, 0x11339), (0x1133D, 0x1133D), (0x11350, 0x11350),
  (0x1135D, 0x11361), (0x11400, 0x11434), (0x11447, 0x1144A), (0x11450, 0x11459), (0x1145F,
  0x11461), (0x11480, 0x114AF), (0x114C4, 0x114C5), (0x114C7, 0x114C7), (0x114D0, 0x114D9),
  (0x11580, 0x115AE), (0x115D8, 0x115DB), (0x11600, 0x1162F), (0x11644, 0x11644), (0x11650,
  0x11659), (0x11680, 0x116AA), (0x116B8, 0x116B8), (0x116C0, 0x116C9), (0x11700, 0x1171A),
  (0x11730, 0x1173B), (0x11740, 0x11746), (0x11800, 0x1182B), (0x118A0, 0x118F2), (0x118FF,
  0x11906), (0x11909, 0x11909), (0x1190C, 0x11913), (0x11915, 0x11916), (0x11918, 0x1192F),
  (0x1193F, 0x1193F), (0x11941, 0x11941), (0x11950, 0x11959), (0x119A0, 0x119A7), (0x119AA,
  0x119D0), (0x119E1, 0x119E1), (0x119E3, 0x119E3), (0x11A00, 0x11A00), (0x11A0B, 0x11A32),
  (0x11A3A, 0x11A3A), (0x11A50, 0x11A50), (0x11A5C, 0x11A89), (0x11A9D, 0x11A9D), (0x11AB0,
  0x11AF8), (0x11C00, 0x11C08), (0x11C0A, 0x11C2E), (0x11C40, 0x11C40), (0x11C50, 0x11C6C),
  (0x11C72, 0x11C8F), (0x11D00, 0x11D06), (0x11D08, 0x11D09), (0x11D0B, 0x11D30), (0x11D46,
  0x11D46), (0x11D50, 0x11D59), (0x11D60, 0x11D65), (0x11D67, 0x11D68), (0x11D6A, 0x11D89),
  (0x11D98, 0x11D98), (0x11DA0, 0x11DA9), (0x11EE0, 0x11EF2), (0x11FB0, 0x11FB0), (0x11FC0,
  0x11FD4), (0x12000, 0x12399), (0x12400, 0x1246E), (0x12480, 0x12543), (0x12F90, 0x12FF0),
  (0x13000, 0x1342E), (0x14400, 0x14646), (0x16800, 0x16A38), (0x16A40, 0x16A5E), (0x16A60,
  0x16A69), (0x16A70, 0x16ABE), (0x16AC0, 0x16AC9), (0x16AD0, 0x16AED), (0x16B00, 0x16B2F),
  (0x16B40, 0x16B43), (0x16B50, 0x16B59), (0x16B5B, 0x16B61), (0x16B63, 0x16B77), (0x16B7D,
  0x16B8F), (0x16E40, 0x16E96), (0x16F00, 0x16F4A), (0x16F50, 0x16F50), (0x16F93, 0x16F9F),
  (0x16FE0, 0x16FE1), (0x16FE3, 0x16FE3), (0x17000, 0x187F7), (0x18800, 0x18CD5), (0x18D00,
  0x18D08), (0x1AFF0, 0x1AFF3), (0x1AFF5, 0x1AFFB), (0x1AFFD, 0x1AFFE), (0x1B000, 0x1B122),
  (0x1B150, 0x1B152), (0x1B164, 0x1B167), (0x1B170, 0x1B2FB), (0x1BC00, 0x1BC6A), (0x1BC70,
  0x1BC7C), (0x1BC80, 0x1BC88), (0x1BC90, 0x1BC99), (0x1D2E0, 0x1D2F3), (0x1D360, 0x1D378),
  (0x1D400, 0x1D454), (0x1D456, 0x1D49C), (0x1D49E, 0x1D49F), (0x1D4A2, 0x1D4A2), (0x1D4A5,
  0x1D4A6), (0x1D4A9, 0x1D4AC), (0x1D4AE, 0x1D4B9), (0x1D4BB, 0x1D4BB), (0x1D4BD, 0x1D4C3),
  (0x1D4C5, 0x1D505), (0x1D507, 0x1D50A), (0x1D50D, 0x1D514), (0x1D516, 0x1D51C), (0x1D51E,
  0x1D539), (0x1D53B, 0x1D53E), (0x1D540, 0x1D544), (0x1D546, 0x1D546), (0x1D54A, 0x1D550),
  (0x1D552, 0x1D6A5), (0x1D6A8, 0x1D6C0), (0x1D6C2, 0x1D6DA), (0x1D6DC, 0x1D6FA), (0x1D6FC,
  0x1D714), (0x1D716, 0x1D734), (0x1D736, 0x1D74E), (0x1D750, 0x1D76E), (0x1D770, 0x1D788),
  (0x1D78A, 0x1D7A8), (0x1D7AA, 0x1D7C2), (0x1D7C4, 0x1D7CB), (0x1D7CE, 0x1D7FF), (0x1DF00,
  0x1DF1E), (0x1E100, 0x1E12C), (0x1E137, 0x1E13D), (0x1E140, 0x1E149), (0x1E14E, 0x1E14E),
  (0x1E290, 0x1E2AD), (0x1E2C0, 0x1E2EB), (0x1E2F0, 0x1E2F9), (0x1E7E0, 0x1E7E6), (0x1E7E8,
  0x1E7EB), (0x1E7ED, 0x1E7EE), (0x1E7F0, 0x1E7FE), (0x1E800, 0x1E8C4), (0x1E8C7, 0x1E8CF),
  (0x1E900, 0x1E943), (0x1E94B, 0x1E94B), (0x1E950, 0x1E959), (0x1EC71, 0x1ECAB), (0x1ECAD,
  0x1ECAF), (0x1ECB1, 0x1ECB4), (0x1ED01, 0x1ED2D), (0x1ED2F, 0x1ED3D), (0x1EE00, 0x1EE03),
  (0x1EE05, 0x1EE1F), (0x1EE21, 0x1EE22), (0x1EE24, 0x1EE24), (0x1EE27, 0x1EE27), (0x1EE29,
  0x1EE32), (0x1EE34, 0x1EE37), (0x1EE39, 0x1EE39), (0x1EE3B, 0x1EE3B), (0x1EE42, 0x1EE42),
  (0x1EE47, 0x1EE47), (0x1EE49, 0x1EE49), (0x1EE4B, 0x1EE4B), (0x1EE4D, 0x1EE4F), (0x1EE51,
  0x1EE52), (0x1EE54, 0x1EE54), (0x1EE57, 0x1EE57), (0x1EE59, 0x1EE59), (0x1EE5B, 0x1EE5B),
  (0x1EE5D, 0x1EE5D), (0x1EE5F, 0x1EE5F), (0x1EE61, 0x1EE62), (0x1EE64, 0x1EE64), (0x1EE67,
  0x1EE6A), (0x1EE6C, 0x1EE72), (0x1EE74, 0x1EE77), (0x1EE79, 0x1EE7C), (0x1EE7E, 0x1EE7E),
  (0x1EE80, 0x1EE89), (0x1EE8B, 0x1EE9B), (0x1EEA1, 0x1EEA3), (0x1EEA5, 0x1EEA9), (0x1EEAB,
  0x1EEBB), (0x1F100, 0x1F10C), (0x1FBF0, 0x1FBF9), (0x20000, 0x2A6DF), (0x2A700, 0x2B738),
  (0x2B740, 0x2B81D), (0x2B820, 0x2CEA1), (0x2CEB0, 0x2EBE0), (0x2F800, 0x2FA1D), (0x30000,
  0x3134A)]

/-- Word-character test used by the word-boundary assertion \\b of the
pattern: a character is a word character exactly when it lies in one of the
tabulated ranges of the engine's class. -/
def isWordChar (c : Nat) : Bool :=
  wordRanges.any (fun r => decide (r.1 ≤ c) && decide (c ≤ r.2))

/-- Code points of the replacement literal cleanup, inserted verbatim. -/
def cleanup : List Nat := [0x63, 0x6C, 0x65, 0x61, 0x6E, 0x75, 0x70]

/-- Characters matching position 1 (letter m) of the case-insensitive literal. -/
def matchCharM (c : Nat) : Bool := c == 0x6D || c == 0x4D

/-- Characters matching position 2 (letter i) of the case-insensitive literal.
CPython's regex engine matches a lowered literal i also against dotless i
(0x131, via the extra-cases table of its compiler) and against I with dot
above (0x130, whose simple lowercase mapping is i). -/
def matchCharI (c : Nat) : Bool := c == 0x69 || c == 0x49 || c == 0x130 || c == 0x131

/-- Characters matching position 3 (letter l) of the case-insensitive literal. -/
def matchCharL (c : Nat) : Bool := c == 0x6C || c == 0x4C

/-- Characters matching position 4 (letter o) of the case-insensitive literal. -/
def matchCharO (c : Nat) : Bool := c == 0x6F || c == 0x4F

/-- Word-boundary test on the left of a match attempt, given the character
immediately before the current position (`none` at the start of the text).
Because every character of the target literal is a word character, \b holds
there exactly when the preceding character is absent or not a word
character. -/
def leftBound : Option Nat → Bool
  | none => true
  | some p => !isWordChar p

/-- Word-boundary test on the right of a match attempt, given the remainder
of the text after the candidate match.  Because the last character of the
target literal is a word character, \b holds there exactly when the following
character is absent or not a word character. -/
def rightBound : List Nat → Bool
  | [] => true
  | c :: _ => !isWordChar c

/-- Match attempt for (?i)\bmilo\b at the current position: the four
characters match the literal case-insensitively and both boundary assertions
hold. -/
def isMiloMatch (prev : Option Nat) (c1 c2 c3 c4 : Nat) (rest : List Nat) : Bool :=
  matchCharM c1 && matchCharI c2 && matchCharL c3 && matchCharO c4 &&
  leftBound prev && rightBound rest

/-- Left-to-right non-overlapping scan of re.sub: at each position attempt the
match; on success emit the replacement and resume after the matched span
(whose last character becomes the new preceding character); on failure copy
one character.  `prev` is the character before the current position. -/
def miloSubAux (prev : Option Nat) : List Nat → List Nat
  | [] => []
  | [c] => [c]
  | [c, d] => [c, d]
  | [c, d, e] => [c, d, e]
  | c1 :: c2 :: c3 :: c4 :: rest =>
    if isMiloMatch prev c1 c2 c3 c4 rest then
      cleanup ++ miloSubAux (some c4) rest
    else
      c1 :: miloSubAux (some c1) (c2 :: c3 :: c4 :: rest)

/-- Model of re.sub of the pattern (?i)\bmilo\b with replacement cleanup over
the decoded text, matching from the start of the string. -/
def miloSub (s : List Nat) : List Nat := miloSubAux none s

/-- Decision procedure for the presence of a whole-word case-insensitive
occurrence of the target at some position of the text, given the preceding
character. -/
def hasMiloAux (prev : Option Nat) : List Nat → Bool
  | [] => false
  | [_] => false
  | [_, _] => false
  | [_, _, _] => false
  | c1 :: c2 :: c3 :: c4 :: rest =>
    isMiloMatch prev c1 c2 c3 c4 rest || hasMiloAux (some c1) (c2 :: c3 :: c4 :: rest)

/-- Presence of a whole-word case-insensitive occurrence of the target
anywhere in the text. -/
def hasMiloOccurrence (s : List Nat) : Bool := hasMiloAux none s

/-- Match attempt at the head of the remaining text (helper for stating scan
lemmas). -/
def headMatch (prev : Option Nat) : List Nat → Bool
  | [] => false
  | [_] => false
  | [_, _] => false
  | [_, _, _] => false
  | c1 :: c2 :: c3 :: c4 :: rest => isMiloMatch prev c1 c2 c3 c4 rest

/-- Continuation-byte test: a byte in the range 0x80 to 0xBF. -/
def contOk (b : Nat) : Bool := decide (0x80 ≤ b) && decide (b ≤ 0xBF)

/-- Admissible first continuation byte of a three-byte sequence with lead
byte `b` (per the CPython decoder): lead 0xE0 forbids overlong encodings,
lead 0xED forbids surrogates. -/
def cont2ok (b b2 : Nat) : Bool :=
  if b == 0xE0 then decide (0xA0 ≤ b2) && decide (b2 ≤ 0xBF)
  else if b == 0xED then decide (0x80 ≤ b2) && decide (b2 ≤ 0x9F)
  else contOk b2

/-- Admissible first continuation byte of a four-byte sequence with lead byte
`b`: lead 0xF0 forbids overlong encodings, lead 0xF4 forbids code points
above 0x10FFFF. -/
def cont3ok (b b2 : Nat) : Bool :=
  if b == 0xF0 then decide (0x90 ≤ b2) && decide (b2 ≤ 0xBF)
  else if b == 0xF4 then decide (0x80 ≤ b2) && decide (b2 ≤ 0x8F)
  else contOk b2

/-- Continuation test on the head of the remaining bytes (false when no byte
is left). -/
def contHead : List Nat → Bool
  | [] => false
  | b :: _ => contOk b

/-- First-continuation test for a three-byte sequence on the head of the
remaining bytes. -/
def cont2Head (b : Nat) : List Nat → Bool
  | [] => false
  | b2 :: _ => cont2ok b b2

/-- First-continuation test for a four-byte sequence on the head of the
remaining bytes. -/
def cont3Head (b : Nat) : List Nat → Bool
  | [] => false
  | b2 :: _ => cont3ok b b2

/-- CPython's UTF-8 decoder with errors equal to ignore, used on line 3 of
the source: well-formed sequences decode to their code point; a maximal
ill-formed subsequence (an invalid lead byte, a stray continuation byte, or a
truncated prefix of a longer sequence) is dropped silently and decoding
resumes at the next byte; a truncated sequence at the end of input is dropped
as well.  Each continuation byte is inspected before the list is taken apart
so that the definition is structurally recursive (hence computable by the
kernel); the branch structure mirrors the codec: on an invalid continuation
the bytes consumed so far are skipped and decoding restarts at the offending
byte. -/
def pyDecodeUtf8Ignore : List Nat → List Nat
  | [] => []
  | b :: bs =>
    if b < 0x80 then b :: pyDecodeUtf8Ignore bs
    else if b < 0xC2 then pyDecodeUtf8Ignore bs
    else if b < 0xE0 then
      if contHead bs then
        match bs with
        | b2 :: bs2 => ((b - 0xC0) * 0x40 + (b2 - 0x80)) :: pyDecodeUtf8Ignore bs2
        | [] => []
      else if bs.isEmpty then [] else pyDecodeUtf8Ignore bs
    else if b < 0xF0 then
      if cont2Head b bs then
        match bs with
        | b2 :: bs2 =>
          if contHead bs2 then
            match bs2 with
            | b3 :: bs3 =>
              ((b - 0xE0) * 0x1000 + (b2 - 0x80) * 0x40 + (b3 - 0x80)) ::
                pyDecodeUtf8Ignore bs3
            | [] => []
          else if bs2.isEmpty then [] else pyDecodeUtf8Ignore bs2
        | [] => []
      else if bs.isEmpty then [] else pyDecodeUtf8Ignore bs
    else if b < 0xF5 then
      if cont3Head b bs then
        match bs with
        | b2 :: bs2 =>
          if contHead bs2 then
            match bs2 with
            | b3 :: bs3 =>
              if contHead bs3 then
                match bs3 with
                | b4 :: bs4 =>
                  ((b - 0xF0) * 0x40000 + (b2 - 0x80) * 0x1000 +
                    (b3 - 0x80) * 0x40 + (b4 - 0x80)) :: pyDecodeUtf8Ignore bs4
                | [] => []
              else if bs3.isEmpty then [] else pyDecodeUtf8Ignore bs3
            | [] => []
          else if bs2.isEmpty then [] else pyDecodeUtf8Ignore bs2
        | [] => []
      else if bs.isEmpty then [] else pyDecodeUtf8Ignore bs
    else pyDecodeUtf8Ignore bs

/-- UTF-8 encoding of one scalar value. -/
def utf8EncodeChar (c : Nat) : List Nat :=
  if c < 0x80 then [c]
  else if c < 0x800 then [0xC0 + c / 0x40, 0x80 + c % 0x40]
  else if c < 0x10000 then [0xE0 + c / 0x1000, 0x80 + (c / 0x40) % 0x40, 0x80 + c % 0x40]
  else [0xF0 + c / 0x40000, 0x80 + (c / 0x1000) % 0x40, 0x80 + (c / 0x40) % 0x40, 0x80 + c % 0x40]

/-- UTF-8 encoding of a text, used on line 5 of the source (total model,
meaningful on surrogate-free text). -/
def utf8Encode : List Nat → List Nat
  | [] => []
  | c :: cs => utf8EncodeChar c ++ utf8Encode cs

/-- Valid Unicode scalar value: in range and not a surrogate.  These are
exactly the code points Python's str.encode accepts. -/
def validScalar (c : Nat) : Bool :=
  decide (c < 0x110000) && !(decide (0xD800 ≤ c) && decide (c < 0xE000))

/-- Fallible model of Python's str.encode with its default strict error
handler: it raises (returns `none`) exactly when some character of the text
is not a valid Unicode scalar value (a lone surrogate; code points above
0x10FFFF cannot occur in a Python str and are treated as errors as well). -/
def utf8EncodeStrict : List Nat → Option (List Nat)
  | [] => some []
  | c :: cs =>
    if validScalar c then
      match utf8EncodeStrict cs with
      | some bs => some (utf8EncodeChar c ++ bs)
      | none => none
    else none

/-- Well-formedness of a byte sequence as UTF-8: every byte belongs to a
well-formed encoded scalar (correct lead byte, admissible continuation bytes,
no overlong forms, no surrogates, nothing above 0x10FFFF). -/
def validUtf8 : List Nat → Bool
  | [] => true
  | b :: bs =>
    if b < 0x80 then validUtf8 bs
    else if b < 0xC2 then false
    else if b < 0xE0 then
      match bs with
      | [] => false
      | b2 :: bs2 => contOk b2 && validUtf8 bs2
    else if b < 0xF0 then
      match bs with
      | [] => false
      | b2 :: bs2 =>
        match bs2 with
        | [] => false
        | b3 :: bs3 => cont2ok b b2 && contOk b3 && validUtf8 bs3
    else if b < 0xF5 then
      match bs with
      | [] => false
      | b2 :: bs2 =>
        match bs2 with
        | [] => false
        | b3 :: bs3 =>
          match bs3 with
          | [] => false
          | b4 :: bs4 => cont3ok b b2 && contOk b3 && contOk b4 && validUtf8 bs4
    else false

/-- Model of the caller-supplied commit object: a readable and writable
message field of byte-sequence type, together with all its other fields
(abstracted as a value of an arbitrary type, which the callback never
touches). -/
structure Commit (α : Type) where
  message : List Nat
  rest : α

/-- Composition of lines 3 to 5 of the source acting on the message bytes:
decode permissively, substitute, re-encode. -/
def transformMessage (bs : List Nat) : List Nat :=
  utf8Encode (miloSub (pyDecodeUtf8Ignore bs))

/-- The callback of src/msg_cb.py as a state transformer on the commit
object: it reads the message field, transforms it, and assigns the result
back to the same field.  The Python function returns None; its entire effect
is this single field update. -/
def message_callback {α : Type} (c : Commit α) : Commit α :=
  { c with message := transformMessage c.message }

/-- The callback with Python's fallible encoding step made explicit: `none`
models an uncaught exception escaping to the caller. -/
def message_callbackE {α : Type} (c : Commit α) : Option (Commit α) :=
  match utf8EncodeStrict (miloSub (pyDecodeUtf8Ignore c.message)) with
  | some m => some { c with message := m }
  | none => none

/-- Last element of a list, if any. -/
def lastOpt : List Nat → Option Nat
  | [] => none
  | [c] => some c
  | _ :: c :: cs => lastOpt (c :: cs)

/-- Test whether a text is exactly one case-insensitive spelling of the
target literal. -/
def isMiloToken : List Nat → Bool
  | [c1, c2, c3, c4] => matchCharM c1 && matchCharI c2 && matchCharL c3 && matchCharO c4
  | _ => false

/-- Test whether a byte sequence contains four consecutive bytes spelling the
target literal in some letter case. -/
def containsMiloBytes : List Nat → Bool
  | b1 :: b2 :: b3 :: b4 :: rest =>
    (matchCharM b1 && matchCharI b2 && matchCharL b3 && matchCharO b4) ||
      containsMiloBytes (b2 :: b3 :: b4 :: rest)
  | _ => false

/-- Byte values that can never begin a well-formed UTF-8 sequence: stray
continuation bytes and the invalid lead bytes 0xC0, 0xC1, and 0xF5 to 0xFF
(and anything above).  The decoder drops each such byte. -/
def invalidByte (b : Nat) : Bool :=
  (decide (0x80 ≤ b) && decide (b < 0xC2)) || decide (0xF5 ≤ b)

/-- Characterization of the byte runs the decoder silently drops between two
stretches of text: reading from the head, each step consumes one maximal
ill-formed subsequence exactly as the decoder's error handling does — a stray
continuation byte or invalid lead byte alone; a two-byte lead whose next byte
(inside the run or, at its end, at the start of the following text) is not a
continuation; a three- or four-byte lead together with its admissible
continuation prefix when the next required continuation is absent.  A lead
whose sequence would continue into the following text does not qualify, and
an ASCII byte never does. -/
def illFormedRun : List Nat → List Nat → Bool
  | [], _ => true
  | b :: bt, suf =>
    if b < 0x80 then false
    else if b < 0xC2 then illFormedRun bt suf
    else if b < 0xE0 then !contHead (bt ++ suf) && illFormedRun bt suf
    else if b < 0xF0 then
      if cont2Head b (bt ++ suf) then
        match bt with
        | [] => false
        | _ :: bt2 => !contHead (bt2 ++ suf) && illFormedRun bt2 suf
      else illFormedRun bt suf
    else if b < 0xF5 then
      if cont3Head b (bt ++ suf) then
        match bt with
        | [] => false
        | _ :: bt2 =>
          if contHead (bt2 ++ suf) then
            match bt2 with
            | [] => false
            | _ :: bt3 => !contHead (bt3 ++ suf) && illFormedRun bt3 suf
          else illFormedRun bt2 suf
      else illFormedRun bt suf
    else illFormedRun bt suf

/-- Test whether the first list is an initial segment of the second. -/
def hasPrefixSeq : List Nat → List Nat → Bool
  | [], _ => true
  | _ :: _, [] => false
  | p :: ps, c :: cs => p == c && hasPrefixSeq ps cs

/-- Test whether the first list occurs contiguously inside the second. -/
def containsSeq (pat : List Nat) : List Nat → Bool
  | [] => hasPrefixSeq pat []
  | c :: cs => hasPrefixSeq pat (c :: cs) || containsSeq pat cs

theorem wordM (c : Nat) (h : matchCharM c = true) : isWordChar c = true := by
  simp [matchCharM] at h
  rcases h with h | h <;> subst h <;> decide

theorem wordI (c : Nat) (h : matchCharI c = true) : isWordChar c = true := by
  simp [matchCharI] at h
  rcases h with ((h | h) | h) | h <;> subst h <;> decide

theorem wordL (c : Nat) (h : matchCharL c = true) : isWordChar c = true := by
  simp [matchCharL] at h
  rcases h with h | h <;> subst h <;> decide

theorem wordO (c : Nat) (h : matchCharO c = true) : isWordChar c = true := by
  simp [matchCharO] at h
  rcases h with h | h <;> subst h <;> decide

theorem matchM_false_of_nonword (c : Nat) (h : isWordChar c = false) : matchCharM c = false := by
  cases hm : matchCharM c
  · rfl
  · rw [wordM c hm] at h
    exact absurd h (by simp)

theorem matchI_false_of_nonword (c : Nat) (h : isWordChar c = false) : matchCharI c = false := by
  cases hm : matchCharI c
  · rfl
  · rw [wordI c hm] at h
    exact absurd h (by simp)

theorem matchL_false_of_nonword (c : Nat) (h : isWordChar c = false) : matchCharL c = false := by
  cases hm : matchCharL c
  · rfl
  · rw [wordL c hm] at h
    exact absurd h (by simp)

theorem matchO_false_of_nonword (c : Nat) (h : isWordChar c = false) : matchCharO c = false := by
  cases hm : matchCharO c
  · rfl
  · rw [wordO c hm] at h
    exact absurd h (by simp)

theorem miloSubAux_short (prev : Option Nat) (s : List Nat) (h : s.length ≤ 3) :
    miloSubAux prev s = s := by
  rcases s with _ | ⟨c, _ | ⟨d, _ | ⟨e, _ | ⟨f, t⟩⟩⟩⟩
  · simp [miloSubAux]
  · simp [miloSubAux]
  · simp [miloSubAux]
  · simp [miloSubAux]
  · simp at h

theorem miloSubAux_match (prev : Option Nat) (c1 c2 c3 c4 : Nat) (rest : List Nat)
    (h : isMiloMatch prev c1 c2 c3 c4 rest = true) :
    miloSubAux prev (c1 :: c2 :: c3 :: c4 :: rest) = cleanup ++ miloSubAux (some c4) rest := by
  simp [miloSubAux, h]

theorem miloSubAux_skip (prev : Option Nat) (c : Nat) (cs : List Nat)
    (h : headMatch prev (c :: cs) = false) :
    miloSubAux prev (c :: cs) = c :: miloSubAux (some c) cs := by
  rcases cs with _ | ⟨d, _ | ⟨e, _ | ⟨f, t⟩⟩⟩
  · simp [miloSubAux]
  · simp [miloSubAux]
  · simp [miloSubAux]
  · simp [headMatch] at h
    simp [miloSubAux, h]

theorem headMatch_cons_notM (prev : Option Nat) (c : Nat) (cs : List Nat)
    (h : matchCharM c = false) : headMatch prev (c :: cs) = false := by
  rcases cs with _ | ⟨d, _ | ⟨e, _ | ⟨f, t⟩⟩⟩ <;> simp [headMatch, isMiloMatch, h]

theorem headMatch_cons2_notI (prev : Option Nat) (c d : Nat) (cs : List Nat)
    (h : matchCharI d = false) : headMatch prev (c :: d :: cs) = false := by
  rcases cs with _ | ⟨e, _ | ⟨f, t⟩⟩ <;> simp [headMatch, isMiloMatch, h]

theorem headMatch_cons3_notL (prev : Option Nat) (c d e : Nat) (cs : List Nat)
    (h : matchCharL e = false) : headMatch prev (c :: d :: e :: cs) = false := by
  rcases cs with _ | ⟨f, t⟩ <;> simp [headMatch, isMiloMatch, h]

theorem headMatch_cons4_notO (prev : Option Nat) (c d e f : Nat) (cs : List Nat)
    (h : matchCharO f = false) : headMatch prev (c :: d :: e :: f :: cs) = false := by
  simp [headMatch, isMiloMatch, h]

theorem headMatch_word_prev (p : Nat) (s : List Nat) (h : isWordChar p = true) :
    headMatch (some p) s = false := by
  rcases s with _ | ⟨a, _ | ⟨b, _ | ⟨c, _ | ⟨d, t⟩⟩⟩⟩ <;>
    simp [headMatch, isMiloMatch, leftBound, h]

theorem miloSubAux_cons_notM (prev : Option Nat) (c : Nat) (cs : List Nat)
    (h : matchCharM c = false) :
    miloSubAux prev (c :: cs) = c :: miloSubAux (some c) cs :=
  miloSubAux_skip prev c cs (headMatch_cons_notM prev c cs h)

theorem hasMiloAux_cons_notM (prev : Option Nat) (c : Nat) (cs : List Nat)
    (h : matchCharM c = false) :
    hasMiloAux prev (c :: cs) = hasMiloAux (some c) cs := by
  rcases cs with _ | ⟨d, _ | ⟨e, _ | ⟨f, t⟩⟩⟩ <;> simp [hasMiloAux, isMiloMatch, h]

theorem miloSubAux_congr (p q : Option Nat) (s : List Nat) (h : leftBound p = leftBound q) :
    miloSubAux p s = miloSubAux q s := by
  rcases s with _ | ⟨a, _ | ⟨b, _ | ⟨c, _ | ⟨d, t⟩⟩⟩⟩
  · simp [miloSubAux]
  · simp [miloSubAux]
  · simp [miloSubAux]
  · simp [miloSubAux]
  · have hm : isMiloMatch p a b c d t = isMiloMatch q a b c d t := by
      simp [isMiloMatch, h]
    simp only [miloSubAux, hm]

theorem miloSubAux_cleanup_app (prev : Option Nat) (X : List Nat) :
    miloSubAux prev (cleanup ++ X) = cleanup ++ miloSubAux (some 0x70) X := by
  simp only [cleanup, List.cons_append, List.nil_append]
  rw [miloSubAux_cons_notM _ _ _ (by decide), miloSubAux_cons_notM _ _ _ (by decide),
    miloSubAux_cons_notM _ _ _ (by decide), miloSubAux_cons_notM _ _ _ (by decide),
    miloSubAux_cons_notM _ _ _ (by decide), miloSubAux_cons_notM _ _ _ (by decide),
    miloSubAux_cons_notM _ _ _ (by decide)]

theorem rightBound_false (rest : List Nat) (h : rightBound rest = false) :
    ∃ r0 rr, rest = r0 :: rr ∧ isWordChar r0 = true := by
  rcases rest with _ | ⟨r0, rr⟩
  · simp [rightBound] at h
  · refine ⟨r0, rr, rfl, ?_⟩
    simpa [rightBound] using h

theorem isMiloMatch_parts (prev : Option Nat) (c1 c2 c3 c4 : Nat) (rest : List Nat)
    (h : isMiloMatch prev c1 c2 c3 c4 rest = true) :
    matchCharM c1 = true ∧ matchCharI c2 = true ∧ matchCharL c3 = true ∧
      matchCharO c4 = true ∧ leftBound prev = true ∧ rightBound rest = true := by
  rw [isMiloMatch] at h
  simp only [Bool.and_eq_true] at h
  exact ⟨h.1.1.1.1.1, h.1.1.1.1.2, h.1.1.1.2, h.1.1.2, h.1.2, h.2⟩

theorem headMatch_after_skip (prev : Option Nat) (c1 c2 c3 c4 : Nat) (rest : List Nat)
    (h : isMiloMatch prev c1 c2 c3 c4 rest = false) :
    headMatch prev (c1 :: miloSubAux (some c1) (c2 :: c3 :: c4 :: rest)) = false := by
  by_cases hM : matchCharM c1 = true
  case neg => exact headMatch_cons_notM _ _ _ (by simpa using hM)
  case pos =>
  rw [miloSubAux_skip _ _ _ (headMatch_word_prev _ _ (wordM _ hM))]
  by_cases hI : matchCharI c2 = true
  case neg => exact headMatch_cons2_notI _ _ _ _ (by simpa using hI)
  case pos =>
  rw [miloSubAux_skip _ _ _ (headMatch_word_prev _ _ (wordI _ hI))]
  by_cases hL : matchCharL c3 = true
  case neg => exact headMatch_cons3_notL _ _ _ _ _ (by simpa using hL)
  case pos =>
  rw [miloSubAux_skip _ _ _ (headMatch_word_prev _ _ (wordL _ hL))]
  by_cases hO : matchCharO c4 = true
  case neg => exact headMatch_cons4_notO _ _ _ _ _ _ (by simpa using hO)
  case pos =>
  by_cases hLB : leftBound prev = true
  case neg =>
    have hLB' : leftBound prev = false := by simpa using hLB
    simp [headMatch, isMiloMatch, hLB']
  case pos =>
  have hRB : rightBound rest = false := by
    simp [isMiloMatch, hM, hI, hL, hO, hLB] at h
    exact h
  obtain ⟨r0, rr, hrest, hr0⟩ := rightBound_false rest hRB
  subst hrest
  rw [miloSubAux_skip _ _ _ (headMatch_word_prev _ _ (wordO _ hO))]
  simp [headMatch, isMiloMatch, rightBound, hr0]

theorem miloSubAux_idem : ∀ (s : List Nat) (prev : Option Nat),
    miloSubAux prev (miloSubAux prev s) = miloSubAux prev s
  | [], prev => by simp [miloSubAux]
  | [c], prev => by simp [miloSubAux]
  | [c, d], prev => by simp [miloSubAux]
  | [c, d, e], prev => by simp [miloSubAux]
  | c1 :: c2 :: c3 :: c4 :: rest, prev => by
    by_cases hm : isMiloMatch prev c1 c2 c3 c4 rest = true
    · rw [miloSubAux_match _ _ _ _ _ _ hm, miloSubAux_cleanup_app]
      have hw4 : isWordChar c4 = true := wordO _ (isMiloMatch_parts _ _ _ _ _ _ hm).2.2.2.1
      have hlb : leftBound (some 0x70) = leftBound (some c4) := by
        have h1 : leftBound (some (0x70 : Nat)) = false := by decide
        have h2 : leftBound (some c4) = false := by simp [leftBound, hw4]
        rw [h1, h2]
      rw [miloSubAux_congr (some 0x70) (some c4) _ hlb]
      rw [miloSubAux_idem rest (some c4)]
    · have hm' : isMiloMatch prev c1 c2 c3 c4 rest = false := by simpa using hm
      have hskip : miloSubAux prev (c1 :: c2 :: c3 :: c4 :: rest) =
          c1 :: miloSubAux (some c1) (c2 :: c3 :: c4 :: rest) := by
        simp [miloSubAux, hm']
      rw [hskip, miloSubAux_skip _ _ _ (headMatch_after_skip _ _ _ _ _ _ hm'),
        miloSubAux_idem (c2 :: c3 :: c4 :: rest) (some c1)]
  termination_by s _ => s.length

theorem miloSubAux_of_no_occurrence : ∀ (s : List Nat) (prev : Option Nat),
    hasMiloAux prev s = false → miloSubAux prev s = s
  | [], _, _ => by simp [miloSubAux]
  | [c], _, _ => by simp [miloSubAux]
  | [c, d], _, _ => by simp [miloSubAux]
  | [c, d, e], _, _ => by simp [miloSubAux]
  | c1 :: c2 :: c3 :: c4 :: rest, prev, h => by
    simp only [hasMiloAux, Bool.or_eq_false_iff] at h
    have hskip : miloSubAux prev (c1 :: c2 :: c3 :: c4 :: rest) =
        c1 :: miloSubAux (some c1) (c2 :: c3 :: c4 :: rest) := by
      simp [miloSubAux, h.1]
    rw [hskip, miloSubAux_of_no_occurrence (c2 :: c3 :: c4 :: rest) (some c1) h.2]
  termination_by s _ _ => s.length

theorem lastOpt_cons_cons (x y : Nat) (t : List Nat) :
    lastOpt (x :: y :: t) = lastOpt (y :: t) := by
  simp [lastOpt]

theorem miloSubAux_cut : ∀ (pre : List Nat) (prev : Option Nat) (p : Nat) (suf : List Nat),
    lastOpt pre = some p → isWordChar p = false →
    miloSubAux prev (pre ++ suf) = miloSubAux prev pre ++ miloSubAux (some p) suf
  | [], prev, p, suf, h, hw => by simp [lastOpt] at h
  | [c], prev, p, suf, h, hw => by
    simp [lastOpt] at h
    subst h
    simp only [List.cons_append, List.nil_append]
    rw [miloSubAux_cons_notM _ _ _ (matchM_false_of_nonword _ hw)]
    simp [miloSubAux]
  | [c, d], prev, p, suf, h, hw => by
    simp [lastOpt] at h
    subst h
    simp only [List.cons_append, List.nil_append]
    rw [miloSubAux_skip _ _ _ (headMatch_cons2_notI _ _ _ _ (matchI_false_of_nonword _ hw))]
    rw [miloSubAux_cons_notM _ _ _ (matchM_false_of_nonword _ hw)]
    simp [miloSubAux]
  | [c, d, e], prev, p, suf, h, hw => by
    simp [lastOpt] at h
    subst h
    simp only [List.cons_append, List.nil_append]
    rw [miloSubAux_skip _ _ _ (headMatch_cons3_notL _ _ _ _ _ (matchL_false_of_nonword _ hw))]
    rw [miloSubAux_skip _ _ _ (headMatch_cons2_notI _ _ _ _ (matchI_false_of_nonword _ hw))]
    rw [miloSubAux_cons_notM _ _ _ (matchM_false_of_nonword _ hw)]
    simp [miloSubAux]
  | [a, b, c, d], prev, p, suf, h, hw => by
    simp [lastOpt] at h
    subst h
    simp only [List.cons_append, List.nil_append]
    rw [miloSubAux_skip _ _ _ (headMatch_cons4_notO _ _ _ _ _ _ (matchO_false_of_nonword _ hw))]
    rw [miloSubAux_skip _ _ _ (headMatch_cons3_notL _ _ _ _ _ (matchL_false_of_nonword _ hw))]
    rw [miloSubAux_skip _ _ _ (headMatch_cons2_notI _ _ _ _ (matchI_false_of_nonword _ hw))]
    rw [miloSubAux_cons_notM _ _ _ (matchM_false_of_nonword _ hw)]
    have hfour : miloSubAux prev [a, b, c, d] = [a, b, c, d] := by
      have hnm : isMiloMatch prev a b c d [] = false := by
        simp [isMiloMatch, matchO_false_of_nonword _ hw]
      simp [miloSubAux, hnm]
    rw [hfour]
    simp
  | a :: b :: c :: d :: e :: pre2, prev, p, suf, h, hw => by
    have hlast : lastOpt (e :: pre2) = some p := by
      rw [lastOpt_cons_cons, lastOpt_cons_cons, lastOpt_cons_cons, lastOpt_cons_cons] at h
      exact h
    have hrb : ∀ X : List Nat, isMiloMatch prev a b c d (e :: X) =
        isMiloMatch prev a b c d (e :: pre2) := by
      intro X
      simp [isMiloMatch, rightBound]
    by_cases hc : isMiloMatch prev a b c d (e :: pre2) = true
    · simp only [List.cons_append]
      rw [miloSubAux_match _ _ _ _ _ _ (by rw [show (e :: (pre2 ++ suf)) =
          e :: (pre2 ++ suf) from rfl, hrb (pre2 ++ suf)]; exact hc)]
      rw [miloSubAux_match _ _ _ _ _ _ hc]
      rw [show (e :: (pre2 ++ suf)) = (e :: pre2) ++ suf from rfl]
      rw [miloSubAux_cut (e :: pre2) (some d) p suf hlast hw]
      simp
    · have hc' : isMiloMatch prev a b c d (e :: pre2) = false := by simpa using hc
      simp only [List.cons_append]
      rw [miloSubAux_skip _ _ _ (by
        simp only [headMatch]
        rw [hrb (pre2 ++ suf)]
        exact hc')]
      rw [show (b :: c :: d :: e :: (pre2 ++ suf)) = (b :: c :: d :: e :: pre2) ++ suf from rfl]
      rw [miloSubAux_cut (b :: c :: d :: e :: pre2) (some a) p suf (by
        rw [lastOpt_cons_cons, lastOpt_cons_cons, lastOpt_cons_cons]
        exact hlast) hw]
      rw [miloSubAux_skip prev a (b :: c :: d :: e :: pre2) (by
        simp only [headMatch]
        exact hc')]
      simp
  termination_by pre _ _ _ => pre.length

theorem hasMiloAux_allword : ∀ (s : List Nat) (p : Nat),
    (∀ x ∈ s, isWordChar x = true) → isWordChar p = true → hasMiloAux (some p) s = false
  | [], _, _, _ => by simp [hasMiloAux]
  | [c], _, _, _ => by simp [hasMiloAux]
  | [c, d], _, _, _ => by simp [hasMiloAux]
  | [c, d, e], _, _, _ => by simp [hasMiloAux]
  | c1 :: c2 :: c3 :: c4 :: rest, p, hall, hp => by
    have h1 : isMiloMatch (some p) c1 c2 c3 c4 rest = false := by
      simp [isMiloMatch, leftBound, hp]
    simp only [hasMiloAux, h1, Bool.false_or]
    exact hasMiloAux_allword (c2 :: c3 :: c4 :: rest) c1
      (fun x hx => hall x (List.mem_cons_of_mem _ hx)) (hall c1 (List.mem_cons_self _ _))
  termination_by s _ _ _ => s.length

theorem allword_no_occurrence (s : List Nat) (hall : ∀ x ∈ s, isWordChar x = true)
    (ht : isMiloToken s = false) : hasMiloOccurrence s = false := by
  rcases s with _ | ⟨c1, _ | ⟨c2, _ | ⟨c3, _ | ⟨c4, rest⟩⟩⟩⟩
  · simp [hasMiloOccurrence, hasMiloAux]
  · simp [hasMiloOccurrence, hasMiloAux]
  · simp [hasMiloOccurrence, hasMiloAux]
  · simp [hasMiloOccurrence, hasMiloAux]
  · have h2 : hasMiloAux (some c1) (c2 :: c3 :: c4 :: rest) = false :=
      hasMiloAux_allword _ c1 (fun x hx => hall x (List.mem_cons_of_mem _ hx))
        (hall c1 (List.mem_cons_self _ _))
    rcases rest with _ | ⟨r0, rr⟩
    · have h1 : isMiloMatch none c1 c2 c3 c4 [] = false := by
        simp only [isMiloMatch, leftBound, rightBound, Bool.and_true]
        simpa [isMiloToken] using ht
      simp [hasMiloOccurrence, hasMiloAux, h1, h2]
    · have h1 : isMiloMatch none c1 c2 c3 c4 (r0 :: rr) = false := by
        have hr : isWordChar r0 = true := hall r0 (by simp)
        simp [isMiloMatch, rightBound, hr]
      show hasMiloAux none (c1 :: c2 :: c3 :: c4 :: r0 :: rr) = false
      rw [hasMiloAux, h1, h2]
      simp

theorem decode_nil : pyDecodeUtf8Ignore [] = [] := by
  rw [pyDecodeUtf8Ignore.eq_def]

theorem decode_ascii (b : Nat) (bs : List Nat) (h : b < 0x80) :
    pyDecodeUtf8Ignore (b :: bs) = b :: pyDecodeUtf8Ignore bs := by
  rw [pyDecodeUtf8Ignore.eq_def]
  simp [h]

theorem decode_skip_low (b : Nat) (bs : List Nat) (h1 : 0x80 ≤ b) (h2 : b < 0xC2) :
    pyDecodeUtf8Ignore (b :: bs) = pyDecodeUtf8Ignore bs := by
  rw [pyDecodeUtf8Ignore.eq_def]
  have hn1 : ¬ b < 0x80 := by omega
  simp [hn1, h2]

theorem decode_skip_high (b : Nat) (bs : List Nat) (h : 0xF5 ≤ b) :
    pyDecodeUtf8Ignore (b :: bs) = pyDecodeUtf8Ignore bs := by
  rw [pyDecodeUtf8Ignore.eq_def]
  have hn1 : ¬ b < 0x80 := by omega
  have hn2 : ¬ b < 0xC2 := by omega
  have hn3 : ¬ b < 0xE0 := by omega
  have hn4 : ¬ b < 0xF0 := by omega
  have hn5 : ¬ b < 0xF5 := by omega
  simp [hn1, hn2, hn3, hn4, hn5]

theorem decode_two_ok (b b2 : Nat) (bs2 : List Nat) (h1 : 0xC2 ≤ b) (h2 : b < 0xE0)
    (h4 : contOk b2 = true) :
    pyDecodeUtf8Ignore (b :: b2 :: bs2) =
      ((b - 0xC0) * 0x40 + (b2 - 0x80)) :: pyDecodeUtf8Ignore bs2 := by
  rw [pyDecodeUtf8Ignore.eq_def]
  have hn1 : ¬ b < 0x80 := by omega
  have hn2 : ¬ b < 0xC2 := by omega
  simp [hn1, hn2, h2, contHead, h4]

theorem decode_two_bad (b b2 : Nat) (bs2 : List Nat) (h1 : 0xC2 ≤ b) (h2 : b < 0xE0)
    (h4 : contOk b2 = false) :
    pyDecodeUtf8Ignore (b :: b2 :: bs2) = pyDecodeUtf8Ignore (b2 :: bs2) := by
  rw [pyDecodeUtf8Ignore.eq_def]
  have hn1 : ¬ b < 0x80 := by omega
  have hn2 : ¬ b < 0xC2 := by omega
  simp [hn1, hn2, h2, contHead, h4]

theorem decode_two_end (b : Nat) (h1 : 0xC2 ≤ b) (h2 : b < 0xE0) :
    pyDecodeUtf8Ignore [b] = [] := by
  rw [pyDecodeUtf8Ignore.eq_def]
  have hn1 : ¬ b < 0x80 := by omega
  have hn2 : ¬ b < 0xC2 := by omega
  simp [hn1, hn2, h2, contHead]

theorem decode_three_ok (b b2 b3 : Nat) (bs3 : List Nat) (h1 : 0xE0 ≤ b) (h2 : b < 0xF0)
    (h4 : cont2ok b b2 = true) (h5 : contOk b3 = true) :
    pyDecodeUtf8Ignore (b :: b2 :: b3 :: bs3) =
      ((b - 0xE0) * 0x1000 + (b2 - 0x80) * 0x40 + (b3 - 0x80)) :: pyDecodeUtf8Ignore bs3 := by
  rw [pyDecodeUtf8Ignore.eq_def]
  have hn1 : ¬ b < 0x80 := by omega
  have hn2 : ¬ b < 0xC2 := by omega
  have hn3 : ¬ b < 0xE0 := by omega
  simp [hn1, hn2, hn3, h2, cont2Head, contHead, h4, h5]

theorem decode_three_bad1 (b b2 : Nat) (bs2 : List Nat) (h1 : 0xE0 ≤ b) (h2 : b < 0xF0)
    (h4 : cont2ok b b2 = false) :
    pyDecodeUtf8Ignore (b :: b2 :: bs2) = pyDecodeUtf8Ignore (b2 :: bs2) := by
  rw [pyDecodeUtf8Ignore.eq_def]
  have hn1 : ¬ b < 0x80 := by omega
  have hn2 : ¬ b < 0xC2 := by omega
  have hn3 : ¬ b < 0xE0 := by omega
  simp [hn1, hn2, hn3, h2, cont2Head, h4]

theorem decode_three_bad2 (b b2 b3 : Nat) (bs3 : List Nat) (h1 : 0xE0 ≤ b) (h2 : b < 0xF0)
    (h4 : cont2ok b b2 = true) (h5 : contOk b3 = false) :
    pyDecodeUtf8Ignore (b :: b2 :: b3 :: bs3) = pyDecodeUtf8Ignore (b3 :: bs3) := by
  rw [pyDecodeUtf8Ignore.eq_def]
  have hn1 : ¬ b < 0x80 := by omega
  have hn2 : ¬ b < 0xC2 := by omega
  have hn3 : ¬ b < 0xE0 := by omega
  simp [hn1, hn2, hn3, h2, cont2Head, contHead, h4, h5]

theorem decode_three_end1 (b : Nat) (h1 : 0xE0 ≤ b) (h2 : b < 0xF0) :
    pyDecodeUtf8Ignore [b] = [] := by
  rw [pyDecodeUtf8Ignore.eq_def]
  have hn1 : ¬ b < 0x80 := by omega
  have hn2 : ¬ b < 0xC2 := by omega
  have hn3 : ¬ b < 0xE0 := by omega
  simp [hn1, hn2, hn3, h2, cont2Head]

theorem decode_three_end2 (b b2 : Nat) (h1 : 0xE0 ≤ b) (h2 : b < 0xF0)
    (h4 : cont2ok b b2 = true) :
    pyDecodeUtf8Ignore [b, b2] = [] := by
  rw [pyDecodeUtf8Ignore.eq_def]
  have hn1 : ¬ b < 0x80 := by omega
  have hn2 : ¬ b < 0xC2 := by omega
  have hn3 : ¬ b < 0xE0 := by omega
  simp [hn1, hn2, hn3, h2, cont2Head, contHead, h4]

theorem decode_four_ok (b b2 b3 b4 : Nat) (bs4 : List Nat) (h1 : 0xF0 ≤ b) (h2 : b < 0xF5)
    (h4 : cont3ok b b2 = true) (h5 : contOk b3 = true) (h6 : contOk b4 = true) :
    pyDecodeUtf8Ignore (b :: b2 :: b3 :: b4 :: bs4) =
      ((b - 0xF0) * 0x40000 + (b2 - 0x80) * 0x1000 + (b3 - 0x80) * 0x40 + (b4 - 0x80)) ::
        pyDecodeUtf8Ignore bs4 := by
  rw [pyDecodeUtf8Ignore.eq_def]
  have hn1 : ¬ b < 0x80 := by omega
  have hn2 : ¬ b < 0xC2 := by omega
  have hn3 : ¬ b < 0xE0 := by omega
  have hn4 : ¬ b < 0xF0 := by omega
  simp [hn1, hn2, hn3, hn4, h2, cont3Head, contHead, h4, h5, h6]

theorem decode_four_bad1 (b b2 : Nat) (bs2 : List Nat) (h1 : 0xF0 ≤ b) (h2 : b < 0xF5)
    (h4 : cont3ok b b2 = false) :
    pyDecodeUtf8Ignore (b :: b2 :: bs2) = pyDecodeUtf8Ignore (b2 :: bs2) := by
  rw [pyDecodeUtf8Ignore.eq_def]
  have hn1 : ¬ b < 0x80 := by omega
  have hn2 : ¬ b < 0xC2 := by omega
  have hn3 : ¬ b < 0xE0 := by omega
  have hn4 : ¬ b < 0xF0 := by omega
  simp [hn1, hn2, hn3, hn4, h2, cont3Head, h4]

theorem decode_four_bad2 (b b2 b3 : Nat) (bs3 : List Nat) (h1 : 0xF0 ≤ b) (h2 : b < 0xF5)
    (h4 : cont3ok b b2 = true) (h5 : contOk b3 = false) :
    pyDecodeUtf8Ignore (b :: b2 :: b3 :: bs3) = pyDecodeUtf8Ignore (b3 :: bs3) := by
  rw [pyDecodeUtf8Ignore.eq_def]
  have hn1 : ¬ b < 0x80 := by omega
  have hn2 : ¬ b < 0xC2 := by omega
  have hn3 : ¬ b < 0xE0 := by omega
  have hn4 : ¬ b < 0xF0 := by omega
  simp [hn1, hn2, hn3, hn4, h2, cont3Head, contHead, h4, h5]

theorem decode_four_bad3 (b b2 b3 b4 : Nat) (bs4 : List Nat) (h1 : 0xF0 ≤ b) (h2 : b < 0xF5)
    (h4 : cont3ok b b2 = true) (h5 : contOk b3 = true) (h6 : contOk b4 = false) :
    pyDecodeUtf8Ignore (b :: b2 :: b3 :: b4 :: bs4) = pyDecodeUtf8Ignore (b4 :: bs4) := by
  rw [pyDecodeUtf8Ignore.eq_def]
  have hn1 : ¬ b < 0x80 := by omega
  have hn2 : ¬ b < 0xC2 := by omega
  have hn3 : ¬ b < 0xE0 := by omega
  have hn4 : ¬ b < 0xF0 := by omega
  simp [hn1, hn2, hn3, hn4, h2, cont3Head, contHead, h4, h5, h6]

theorem decode_four_end1 (b : Nat) (h1 : 0xF0 ≤ b) (h2 : b < 0xF5) :
    pyDecodeUtf8Ignore [b] = [] := by
  rw [pyDecodeUtf8Ignore.eq_def]
  have hn1 : ¬ b < 0x80 := by omega
  have hn2 : ¬ b < 0xC2 := by omega
  have hn3 : ¬ b < 0xE0 := by omega
  have hn4 : ¬ b < 0xF0 := by omega
  simp [hn1, hn2, hn3, hn4, h2, cont3Head]

theorem decode_four_end2 (b b2 : Nat) (h1 : 0xF0 ≤ b) (h2 : b < 0xF5)
    (h4 : cont3ok b b2 = true) :
    pyDecodeUtf8Ignore [b, b2] = [] := by
  rw [pyDecodeUtf8Ignore.eq_def]
  have hn1 : ¬ b < 0x80 := by omega
  have hn2 : ¬ b < 0xC2 := by omega
  have hn3 : ¬ b < 0xE0 := by omega
  have hn4 : ¬ b < 0xF0 := by omega
  simp [hn1, hn2, hn3, hn4, h2, cont3Head, contHead, h4]

theorem decode_four_end3 (b b2 b3 : Nat) (h1 : 0xF0 ≤ b) (h2 : b < 0xF5)
    (h4 : cont3ok b b2 = true) (h5 : contOk b3 = true) :
    pyDecodeUtf8Ignore [b, b2, b3] = [] := by
  rw [pyDecodeUtf8Ignore.eq_def]
  have hn1 : ¬ b < 0x80 := by omega
  have hn2 : ¬ b < 0xC2 := by omega
  have hn3 : ¬ b < 0xE0 := by omega
  have hn4 : ¬ b < 0xF0 := by omega
  simp [hn1, hn2, hn3, hn4, h2, cont3Head, contHead, h4, h5]

theorem contOk_bounds (b : Nat) (h : contOk b = true) : 0x80 ≤ b ∧ b ≤ 0xBF := by
  simp [contOk] at h
  exact h

theorem cont2ok_bounds (b b2 : Nat) (h : cont2ok b b2 = true) :
    0x80 ≤ b2 ∧ b2 ≤ 0xBF ∧ (b = 0xE0 → 0xA0 ≤ b2) ∧ (b = 0xED → b2 ≤ 0x9F) := by
  by_cases hb1 : b = 0xE0
  · subst hb1
    simp [cont2ok] at h
    omega
  · by_cases hb2 : b = 0xED
    · subst hb2
      simp [cont2ok] at h
      omega
    · have he : cont2ok b b2 = contOk b2 := by simp [cont2ok, hb1, hb2]
      rw [he] at h
      simp [contOk] at h
      omega

theorem cont3ok_bounds (b b2 : Nat) (h : cont3ok b b2 = true) :
    0x80 ≤ b2 ∧ b2 ≤ 0xBF ∧ (b = 0xF0 → 0x90 ≤ b2) ∧ (b = 0xF4 → b2 ≤ 0x8F) := by
  by_cases hb1 : b = 0xF0
  · subst hb1
    simp [cont3ok] at h
    omega
  · by_cases hb2 : b = 0xF4
    · subst hb2
      simp [cont3ok] at h
      omega
    · have he : cont3ok b b2 = contOk b2 := by simp [cont3ok, hb1, hb2]
      rw [he] at h
      simp [contOk] at h
      omega

theorem decode_scalars_aux : ∀ (n : Nat) (bs : List Nat), bs.length ≤ n →
    ∀ x ∈ pyDecodeUtf8Ignore bs, validScalar x = true := by
  intro n
  induction n with
  | zero =>
    intro bs hlen x hx
    have hnil : bs = [] := List.length_eq_zero.mp (Nat.le_zero.mp hlen)
    subst hnil
    rw [decode_nil] at hx
    simp at hx
  | succ n ih =>
    intro bs hlen x hx
    rcases bs with _ | ⟨b, bs1⟩
    · rw [decode_nil] at hx
      simp at hx
    · have hlen1 : bs1.length ≤ n := by
        simp only [List.length_cons] at hlen
        omega
      by_cases h1 : b < 0x80
      · rw [decode_ascii b bs1 h1] at hx
        rcases List.mem_cons.mp hx with hxe | hx'
        · subst hxe
          simp [validScalar]
          omega
        · exact ih bs1 hlen1 x hx'
      · by_cases h2 : b < 0xC2
        · rw [decode_skip_low b bs1 (by omega) h2] at hx
          exact ih bs1 hlen1 x hx
        · by_cases h3 : b < 0xE0
          · rcases bs1 with _ | ⟨b2, bs2⟩
            · rw [decode_two_end b (by omega) h3] at hx
              simp at hx
            · have hlen2 : bs2.length ≤ n := by
                simp only [List.length_cons] at hlen1
                omega
              by_cases hc : contOk b2 = true
              · rw [decode_two_ok b b2 bs2 (by omega) h3 hc] at hx
                rcases List.mem_cons.mp hx with hxe | hx'
                · subst hxe
                  have hb2 := contOk_bounds b2 hc
                  simp [validScalar]
                  omega
                · exact ih bs2 hlen2 x hx'
              · rw [decode_two_bad b b2 bs2 (by omega) h3 (by simpa using hc)] at hx
                exact ih (b2 :: bs2) hlen1 x hx
          · by_cases h4 : b < 0xF0
            · rcases bs1 with _ | ⟨b2, bs2⟩
              · rw [decode_three_end1 b (by omega) h4] at hx
                simp at hx
              · have hlen2 : bs2.length ≤ n := by
                  simp only [List.length_cons] at hlen1
                  omega
                by_cases hc : cont2ok b b2 = true
                · rcases bs2 with _ | ⟨b3, bs3⟩
                  · rw [decode_three_end2 b b2 (by omega) h4 hc] at hx
                    simp at hx
                  · have hlen3 : bs3.length ≤ n := by
                      simp only [List.length_cons] at hlen2
                      omega
                    by_cases hc3 : contOk b3 = true
                    · rw [decode_three_ok b b2 b3 bs3 (by omega) h4 hc hc3] at hx
                      rcases List.mem_cons.mp hx with hxe | hx'
                      · subst hxe
                        have hb2 := cont2ok_bounds b b2 hc
                        have hb3 := contOk_bounds b3 hc3
                        simp [validScalar]
                        omega
                      · exact ih bs3 hlen3 x hx'
                    · rw [decode_three_bad2 b b2 b3 bs3 (by omega) h4 hc
                        (by simpa using hc3)] at hx
                      exact ih (b3 :: bs3) hlen2 x hx
                · rw [decode_three_bad1 b b2 bs2 (by omega) h4 (by simpa using hc)] at hx
                  exact ih (b2 :: bs2) hlen1 x hx
            · by_cases h5 : b < 0xF5
              · rcases bs1 with _ | ⟨b2, bs2⟩
                · rw [decode_four_end1 b (by omega) h5] at hx
                  simp at hx
                · have hlen2 : bs2.length ≤ n := by
                    simp only [List.length_cons] at hlen1
                    omega
                  by_cases hc : cont3ok b b2 = true
                  · rcases bs2 with _ | ⟨b3, bs3⟩
                    · rw [decode_four_end2 b b2 (by omega) h5 hc] at hx
                      simp at hx
                    · have hlen3 : bs3.length ≤ n := by
                        simp only [List.length_cons] at hlen2
                        omega
                      by_cases hc3 : contOk b3 = true
                      · rcases bs3 with _ | ⟨b4, bs4⟩
                        · rw [decode_four_end3 b b2 b3 (by omega) h5 hc hc3] at hx
                          simp at hx
                        · have hlen4 : bs4.length ≤ n := by
                            simp only [List.length_cons] at hlen3
                            omega
                          by_cases hc4 : contOk b4 = true
                          · rw [decode_four_ok b b2 b3 b4 bs4 (by omega) h5 hc hc3 hc4] at hx
                            rcases List.mem_cons.mp hx with hxe | hx'
                            · subst hxe
                              have hb2 := cont3ok_bounds b b2 hc
                              have hb3 := contOk_bounds b3 hc3
                              have hb4 := contOk_bounds b4 hc4
                              simp [validScalar]
                              omega
                            · exact ih bs4 hlen4 x hx'
                          · rw [decode_four_bad3 b b2 b3 b4 bs4 (by omega) h5 hc hc3
                              (by simpa using hc4)] at hx
                            exact ih (b4 :: bs4) hlen3 x hx
                      · rw [decode_four_bad2 b b2 b3 bs3 (by omega) h5 hc
                          (by simpa using hc3)] at hx
                        exact ih (b3 :: bs3) hlen2 x hx
                  · rw [decode_four_bad1 b b2 bs2 (by omega) h5 (by simpa using hc)] at hx
                    exact ih (b2 :: bs2) hlen1 x hx
              · rw [decode_skip_high b bs1 (by omega)] at hx
                exact ih bs1 hlen1 x hx

theorem decode_scalars (bs : List Nat) : ∀ x ∈ pyDecodeUtf8Ignore bs, validScalar x = true :=
  decode_scalars_aux bs.length bs (Nat.le_refl _)

theorem decode_drop_invalid (b : Nat) (bs : List Nat) (h : invalidByte b = true) :
    pyDecodeUtf8Ignore (b :: bs) = pyDecodeUtf8Ignore bs := by
  simp [invalidByte] at h
  rcases h with ⟨h1, h2⟩ | h1
  · exact decode_skip_low b bs h1 h2
  · exact decode_skip_high b bs h1

theorem encodeChar_one (c : Nat) (h : c < 0x80) : utf8EncodeChar c = [c] := by
  simp [utf8EncodeChar, h]

theorem encodeChar_two (c : Nat) (h1 : 0x80 ≤ c) (h2 : c < 0x800) :
    utf8EncodeChar c = [0xC0 + c / 0x40, 0x80 + c % 0x40] := by
  have hn1 : ¬ c < 0x80 := by omega
  simp [utf8EncodeChar, hn1, h2]

theorem encodeChar_three (c : Nat) (h1 : 0x800 ≤ c) (h2 : c < 0x10000) :
    utf8EncodeChar c = [0xE0 + c / 0x1000, 0x80 + c / 0x40 % 0x40, 0x80 + c % 0x40] := by
  have hn1 : ¬ c < 0x80 := by omega
  have hn2 : ¬ c < 0x800 := by omega
  simp [utf8EncodeChar, hn1, hn2, h2]

theorem encodeChar_four (c : Nat) (h1 : 0x10000 ≤ c) :
    utf8EncodeChar c =
      [0xF0 + c / 0x40000, 0x80 + c / 0x1000 % 0x40, 0x80 + c / 0x40 % 0x40,
        0x80 + c % 0x40] := by
  have hn1 : ¬ c < 0x80 := by omega
  have hn2 : ¬ c < 0x800 := by omega
  have hn3 : ¬ c < 0x10000 := by omega
  simp [utf8EncodeChar, hn1, hn2, hn3]

theorem valid_nil : validUtf8 [] = true := by
  rw [validUtf8.eq_def]

theorem valid_ascii (b : Nat) (bs : List Nat) (h : b < 0x80) :
    validUtf8 (b :: bs) = validUtf8 bs := by
  rw [validUtf8.eq_def]
  simp [h]

theorem valid_low_false (b : Nat) (bs : List Nat) (h1 : 0x80 ≤ b) (h2 : b < 0xC2) :
    validUtf8 (b :: bs) = false := by
  rw [validUtf8.eq_def]
  have hn1 : ¬ b < 0x80 := by omega
  simp [hn1, h2]

theorem valid_high_false (b : Nat) (bs : List Nat) (h : 0xF5 ≤ b) :
    validUtf8 (b :: bs) = false := by
  rw [validUtf8.eq_def]
  have hn1 : ¬ b < 0x80 := by omega
  have hn2 : ¬ b < 0xC2 := by omega
  have hn3 : ¬ b < 0xE0 := by omega
  have hn4 : ¬ b < 0xF0 := by omega
  have hn5 : ¬ b < 0xF5 := by omega
  simp [hn1, hn2, hn3, hn4, hn5]

theorem valid_two (b b2 : Nat) (bs2 : List Nat) (h1 : 0xC2 ≤ b) (h2 : b < 0xE0) :
    validUtf8 (b :: b2 :: bs2) = (contOk b2 && validUtf8 bs2) := by
  rw [validUtf8.eq_def]
  have hn1 : ¬ b < 0x80 := by omega
  have hn2 : ¬ b < 0xC2 := by omega
  simp [hn1, hn2, h2]

theorem valid_two_end (b : Nat) (h1 : 0xC2 ≤ b) (h2 : b < 0xE0) :
    validUtf8 [b] = false := by
  rw [validUtf8.eq_def]
  have hn1 : ¬ b < 0x80 := by omega
  have hn2 : ¬ b < 0xC2 := by omega
  simp [hn1, hn2, h2]

theorem valid_three (b b2 b3 : Nat) (bs3 : List Nat) (h1 : 0xE0 ≤ b) (h2 : b < 0xF0) :
    validUtf8 (b :: b2 :: b3 :: bs3) = (cont2ok b b2 && contOk b3 && validUtf8 bs3) := by
  rw [validUtf8.eq_def]
  have hn1 : ¬ b < 0x80 := by omega
  have hn2 : ¬ b < 0xC2 := by omega
  have hn3 : ¬ b < 0xE0 := by omega
  simp [hn1, hn2, hn3, h2, Bool.and_assoc]

theorem valid_three_end1 (b : Nat) (h1 : 0xE0 ≤ b) (h2 : b < 0xF0) :
    validUtf8 [b] = false := by
  rw [validUtf8.eq_def]
  have hn1 : ¬ b < 0x80 := by omega
  have hn2 : ¬ b < 0xC2 := by omega
  have hn3 : ¬ b < 0xE0 := by omega
  simp [hn1, hn2, hn3, h2]

theorem valid_three_end2 (b b2 : Nat) (h1 : 0xE0 ≤ b) (h2 : b < 0xF0) :
    validUtf8 [b, b2] = false := by
  rw [validUtf8.eq_def]
  have hn1 : ¬ b < 0x80 := by omega
  have hn2 : ¬ b < 0xC2 := by omega
  have hn3 : ¬ b < 0xE0 := by omega
  simp [hn1, hn2, hn3, h2]

theorem valid_four (b b2 b3 b4 : Nat) (bs4 : List Nat) (h1 : 0xF0 ≤ b) (h2 : b < 0xF5) :
    validUtf8 (b :: b2 :: b3 :: b4 :: bs4) =
      (cont3ok b b2 && contOk b3 && contOk b4 && validUtf8 bs4) := by
  rw [validUtf8.eq_def]
  have hn1 : ¬ b < 0x80 := by omega
  have hn2 : ¬ b < 0xC2 := by omega
  have hn3 : ¬ b < 0xE0 := by omega
  have hn4 : ¬ b < 0xF0 := by omega
  simp [hn1, hn2, hn3, hn4, h2, Bool.and_assoc]

theorem valid_four_end1 (b : Nat) (h1 : 0xF0 ≤ b) (h2 : b < 0xF5) :
    validUtf8 [b] = false := by
  rw [validUtf8.eq_def]
  have hn1 : ¬ b < 0x80 := by omega
  have hn2 : ¬ b < 0xC2 := by omega
  have hn3 : ¬ b < 0xE0 := by omega
  have hn4 : ¬ b < 0xF0 := by omega
  simp [hn1, hn2, hn3, hn4, h2]

theorem valid_four_end2 (b b2 : Nat) (h1 : 0xF0 ≤ b) (h2 : b < 0xF5) :
    validUtf8 [b, b2] = false := by
  rw [validUtf8.eq_def]
  have hn1 : ¬ b < 0x80 := by omega
  have hn2 : ¬ b < 0xC2 := by omega
  have hn3 : ¬ b < 0xE0 := by omega
  have hn4 : ¬ b < 0xF0 := by omega
  simp [hn1, hn2, hn3, hn4, h2]

theorem valid_four_end3 (b b2 b3 : Nat) (h1 : 0xF0 ≤ b) (h2 : b < 0xF5) :
    validUtf8 [b, b2, b3] = false := by
  rw [validUtf8.eq_def]
  have hn1 : ¬ b < 0x80 := by omega
  have hn2 : ¬ b < 0xC2 := by omega
  have hn3 : ¬ b < 0xE0 := by omega
  have hn4 : ¬ b < 0xF0 := by omega
  simp [hn1, hn2, hn3, hn4, h2]

theorem contOk_byte (x : Nat) : contOk (0x80 + x % 0x40) = true := by
  simp [contOk]
  omega

theorem cont2ok_of_scalar (c : Nat) (h1 : 0x800 ≤ c) (h2 : c < 0x10000)
    (h3 : validScalar c = true) :
    cont2ok (0xE0 + c / 0x1000) (0x80 + c / 0x40 % 0x40) = true := by
  simp [validScalar] at h3
  unfold cont2ok
  split
  · next hbeq =>
    simp at hbeq ⊢
    omega
  · split
    · next hbeq =>
      simp at hbeq ⊢
      omega
    · next hne1 hne2 =>
      simp at hne1 hne2
      simp [contOk]
      omega

theorem cont3ok_of_scalar (c : Nat) (h1 : 0x10000 ≤ c) (h2 : c < 0x110000) :
    cont3ok (0xF0 + c / 0x40000) (0x80 + c / 0x1000 % 0x40) = true := by
  unfold cont3ok
  split
  · next hbeq =>
    simp at hbeq ⊢
    omega
  · split
    · next hbeq =>
      simp at hbeq ⊢
      omega
    · next hne1 hne2 =>
      simp at hne1 hne2
      simp [contOk]
      omega

theorem cleanup_scalars : ∀ x ∈ cleanup, validScalar x = true := by decide

theorem encode_decode_of_valid_aux : ∀ (n : Nat) (bs : List Nat), bs.length ≤ n →
    validUtf8 bs = true → utf8Encode (pyDecodeUtf8Ignore bs) = bs := by
  intro n
  induction n with
  | zero =>
    intro bs hlen _
    have hnil : bs = [] := List.length_eq_zero.mp (Nat.le_zero.mp hlen)
    subst hnil
    rw [decode_nil, utf8Encode]
  | succ n ih =>
    intro bs hlen hv
    rcases bs with _ | ⟨b, bs1⟩
    · rw [decode_nil, utf8Encode]
    · have hlen1 : bs1.length ≤ n := by
        simp only [List.length_cons] at hlen
        omega
      by_cases h1 : b < 0x80
      · rw [valid_ascii b bs1 h1] at hv
        rw [decode_ascii b bs1 h1, utf8Encode, encodeChar_one b h1, ih bs1 hlen1 hv]
        rfl
      · by_cases h2 : b < 0xC2
        · rw [valid_low_false b bs1 (by omega) h2] at hv
          exact absurd hv (by simp)
        · by_cases h3 : b < 0xE0
          · rcases bs1 with _ | ⟨b2, bs2⟩
            · rw [valid_two_end b (by omega) h3] at hv
              exact absurd hv (by simp)
            · have hlen2 : bs2.length ≤ n := by
                simp only [List.length_cons] at hlen1
                omega
              rw [valid_two b b2 bs2 (by omega) h3] at hv
              simp only [Bool.and_eq_true] at hv
              obtain ⟨hc, hv2⟩ := hv
              rw [decode_two_ok b b2 bs2 (by omega) h3 hc, utf8Encode, ih bs2 hlen2 hv2]
              have hcb := contOk_bounds b2 hc
              rw [encodeChar_two _ (by omega) (by omega)]
              have e1 : 0xC0 + ((b - 0xC0) * 0x40 + (b2 - 0x80)) / 0x40 = b := by omega
              have e2 : 0x80 + ((b - 0xC0) * 0x40 + (b2 - 0x80)) % 0x40 = b2 := by omega
              rw [e1, e2]
              rfl
          · by_cases h4 : b < 0xF0
            · rcases bs1 with _ | ⟨b2, bs2⟩
              · rw [valid_three_end1 b (by omega) h4] at hv
                exact absurd hv (by simp)
              · rcases bs2 with _ | ⟨b3, bs3⟩
                · rw [valid_three_end2 b b2 (by omega) h4] at hv
                  exact absurd hv (by simp)
                · have hlen3 : bs3.length ≤ n := by
                    simp only [List.length_cons] at hlen1
                    omega
                  rw [valid_three b b2 b3 bs3 (by omega) h4] at hv
                  simp only [Bool.and_eq_true] at hv
                  obtain ⟨⟨hc2, hc3⟩, hv3⟩ := hv
                  rw [decode_three_ok b b2 b3 bs3 (by omega) h4 hc2 hc3, utf8Encode,
                    ih bs3 hlen3 hv3]
                  have hb2 := cont2ok_bounds b b2 hc2
                  have hb3 := contOk_bounds b3 hc3
                  rw [encodeChar_three _ (by omega) (by omega)]
                  have e1 : 0xE0 + ((b - 0xE0) * 0x1000 + (b2 - 0x80) * 0x40 +
                      (b3 - 0x80)) / 0x1000 = b := by omega
                  have e2 : 0x80 + ((b - 0xE0) * 0x1000 + (b2 - 0x80) * 0x40 +
                      (b3 - 0x80)) / 0x40 % 0x40 = b2 := by omega
                  have e3 : 0x80 + ((b - 0xE0) * 0x1000 + (b2 - 0x80) * 0x40 +
                      (b3 - 0x80)) % 0x40 = b3 := by omega
                  rw [e1, e2, e3]
                  rfl
            · by_cases h5 : b < 0xF5
              · rcases bs1 with _ | ⟨b2, bs2⟩
                · rw [valid_four_end1 b (by omega) h5] at hv
                  exact absurd hv (by simp)
                · rcases bs2 with _ | ⟨b3, bs3⟩
                  · rw [valid_four_end2 b b2 (by omega) h5] at hv
                    exact absurd hv (by simp)
                  · rcases bs3 with _ | ⟨b4, bs4⟩
                    · rw [valid_four_end3 b b2 b3 (by omega) h5] at hv
                      exact absurd hv (by simp)
                    · have hlen4 : bs4.length ≤ n := by
                        simp only [List.length_cons] at hlen1
                        omega
                      rw [valid_four b b2 b3 b4 bs4 (by omega) h5] at hv
                      simp only [Bool.and_eq_true] at hv
                      obtain ⟨⟨⟨hc2, hc3⟩, hc4⟩, hv4⟩ := hv
                      rw [decode_four_ok b b2 b3 b4 bs4 (by omega) h5 hc2 hc3 hc4,
                        utf8Encode, ih bs4 hlen4 hv4]
                      have hb2 := cont3ok_bounds b b2 hc2
                      have hb3 := contOk_bounds b3 hc3
                      have hb4 := contOk_bounds b4 hc4
                      rw [encodeChar_four _ (by omega)]
                      have e1 : 0xF0 + ((b - 0xF0) * 0x40000 + (b2 - 0x80) * 0x1000 +
                          (b3 - 0x80) * 0x40 + (b4 - 0x80)) / 0x40000 = b := by omega
                      have e2 : 0x80 + ((b - 0xF0) * 0x40000 + (b2 - 0x80) * 0x1000 +
                          (b3 - 0x80) * 0x40 + (b4 - 0x80)) / 0x1000 % 0x40 = b2 := by omega
                      have e3 : 0x80 + ((b - 0xF0) * 0x40000 + (b2 - 0x80) * 0x1000 +
                          (b3 - 0x80) * 0x40 + (b4 - 0x80)) / 0x40 % 0x40 = b3 := by omega
                      have e4 : 0x80 + ((b - 0xF0) * 0x40000 + (b2 - 0x80) * 0x1000 +
                          (b3 - 0x80) * 0x40 + (b4 - 0x80)) % 0x40 = b4 := by omega
                      rw [e1, e2, e3, e4]
                      rfl
              · rw [valid_high_false b bs1 (by omega)] at hv
                exact absurd hv (by simp)

theorem encode_decode_of_valid (bs : List Nat) (hv : validUtf8 bs = true) :
    utf8Encode (pyDecodeUtf8Ignore bs) = bs :=
  encode_decode_of_valid_aux bs.length bs (Nat.le_refl _) hv

theorem decode_encode_id (s : List Nat) (h : ∀ x ∈ s, validScalar x = true) :
    pyDecodeUtf8Ignore (utf8Encode s) = s := by
  induction s with
  | nil =>
    rw [utf8Encode, decode_nil]
  | cons c cs ih =>
    have hc : validScalar c = true := h c (List.mem_cons_self _ _)
    have ihs := ih (fun x hx => h x (List.mem_cons_of_mem _ hx))
    rw [utf8Encode]
    by_cases h1 : c < 0x80
    · rw [encodeChar_one c h1]
      simp only [List.singleton_append]
      rw [decode_ascii _ _ h1, ihs]
    · by_cases h2 : c < 0x800
      · rw [encodeChar_two c (by omega) h2]
        simp only [List.cons_append, List.nil_append]
        rw [decode_two_ok _ _ _ (by omega) (by omega) (contOk_byte c)]
        have e : (0xC0 + c / 0x40 - 0xC0) * 0x40 + (0x80 + c % 0x40 - 0x80) = c := by omega
        rw [e, ihs]
      · by_cases h3 : c < 0x10000
        · rw [encodeChar_three c (by omega) h3]
          simp only [List.cons_append, List.nil_append]
          rw [decode_three_ok _ _ _ _ (by omega) (by omega)
            (cont2ok_of_scalar c (by omega) h3 hc) (contOk_byte c)]
          have e : (0xE0 + c / 0x1000 - 0xE0) * 0x1000 +
              (0x80 + c / 0x40 % 0x40 - 0x80) * 0x40 + (0x80 + c % 0x40 - 0x80) = c := by
            omega
          rw [e, ihs]
        · have h4 : c < 0x110000 := by
            simp [validScalar] at hc
            omega
          rw [encodeChar_four c (by omega)]
          simp only [List.cons_append, List.nil_append]
          rw [decode_four_ok _ _ _ _ _ (by omega) (by omega)
            (cont3ok_of_scalar c (by omega) h4) (contOk_byte (c / 0x40)) (contOk_byte c)]
          have e : (0xF0 + c / 0x40000 - 0xF0) * 0x40000 +
              (0x80 + c / 0x1000 % 0x40 - 0x80) * 0x1000 +
              (0x80 + c / 0x40 % 0x40 - 0x80) * 0x40 + (0x80 + c % 0x40 - 0x80) = c := by
            omega
          rw [e, ihs]

theorem encode_valid (s : List Nat) (h : ∀ x ∈ s, validScalar x = true) :
    validUtf8 (utf8Encode s) = true := by
  induction s with
  | nil =>
    rw [utf8Encode]
    exact valid_nil
  | cons c cs ih =>
    have hc : validScalar c = true := h c (List.mem_cons_self _ _)
    have ihs := ih (fun x hx => h x (List.mem_cons_of_mem _ hx))
    rw [utf8Encode]
    by_cases h1 : c < 0x80
    · rw [encodeChar_one c h1]
      simp only [List.singleton_append]
      rw [valid_ascii _ _ h1]
      exact ihs
    · by_cases h2 : c < 0x800
      · rw [encodeChar_two c (by omega) h2]
        simp only [List.cons_append, List.nil_append]
        rw [valid_two _ _ _ (by omega) (by omega)]
        simp [contOk_byte c, ihs]
      · by_cases h3 : c < 0x10000
        · rw [encodeChar_three c (by omega) h3]
          simp only [List.cons_append, List.nil_append]
          rw [valid_three _ _ _ _ (by omega) (by omega)]
          simp [cont2ok_of_scalar c (by omega) h3 hc, contOk_byte c, ihs]
        · have h4 : c < 0x110000 := by
            simp [validScalar] at hc
            omega
          rw [encodeChar_four c (by omega)]
          simp only [List.cons_append, List.nil_append]
          rw [valid_four _ _ _ _ _ (by omega) (by omega)]
          simp [cont3ok_of_scalar c (by omega) h4, contOk_byte (c / 0x40), contOk_byte c, ihs]

theorem utf8EncodeStrict_eq (s : List Nat) (h : ∀ x ∈ s, validScalar x = true) :
    utf8EncodeStrict s = some (utf8Encode s) := by
  induction s with
  | nil => rw [utf8EncodeStrict, utf8Encode]
  | cons c cs ih =>
    have hc : validScalar c = true := h c (List.mem_cons_self _ _)
    have ihs := ih (fun x hx => h x (List.mem_cons_of_mem _ hx))
    rw [utf8EncodeStrict, utf8Encode, ihs]
    simp [hc]

theorem miloSubAux_scalars : ∀ (s : List Nat) (prev : Option Nat),
    (∀ x ∈ s, validScalar x = true) → ∀ x ∈ miloSubAux prev s, validScalar x = true
  | [], _, h => by
    rw [miloSubAux_short _ _ (by simp)]
    exact h
  | [c], _, h => by
    rw [miloSubAux_short _ _ (by simp)]
    exact h
  | [c, d], _, h => by
    rw [miloSubAux_short _ _ (by simp)]
    exact h
  | [c, d, e], _, h => by
    rw [miloSubAux_short _ _ (by simp)]
    exact h
  | c1 :: c2 :: c3 :: c4 :: rest, prev, h => by
    by_cases hm : isMiloMatch prev c1 c2 c3 c4 rest = true
    · rw [miloSubAux_match _ _ _ _ _ _ hm]
      intro x hx
      rcases List.mem_append.mp hx with hcl | hrec
      · exact cleanup_scalars x hcl
      · exact miloSubAux_scalars rest (some c4)
          (fun y hy => h y (by simp [hy])) x hrec
    · have hm' : isMiloMatch prev c1 c2 c3 c4 rest = false := by simpa using hm
      have hskip : miloSubAux prev (c1 :: c2 :: c3 :: c4 :: rest) =
          c1 :: miloSubAux (some c1) (c2 :: c3 :: c4 :: rest) := by
        simp [miloSubAux, hm']
      rw [hskip]
      intro x hx
      rcases List.mem_cons.mp hx with hxe | hrec
      · subst hxe
        exact h x (List.mem_cons_self _ _)
      · exact miloSubAux_scalars (c2 :: c3 :: c4 :: rest) (some c1)
          (fun y hy => h y (by simp [hy])) x hrec
  termination_by s _ _ => s.length

theorem miloSub_scalars (s : List Nat) (h : ∀ x ∈ s, validScalar x = true) :
    ∀ x ∈ miloSub s, validScalar x = true :=
  miloSubAux_scalars s none h

theorem decode_append_of_valid_aux : ∀ (n : Nat) (pre : List Nat), pre.length ≤ n →
    validUtf8 pre = true → ∀ rest : List Nat,
    pyDecodeUtf8Ignore (pre ++ rest) = pyDecodeUtf8Ignore pre ++ pyDecodeUtf8Ignore rest := by
  intro n
  induction n with
  | zero =>
    intro pre hlen _ rest
    have hnil : pre = [] := List.length_eq_zero.mp (Nat.le_zero.mp hlen)
    subst hnil
    rw [decode_nil]
    rfl
  | succ n ih =>
    intro pre hlen hv rest
    rcases pre with _ | ⟨b, bs1⟩
    · rw [decode_nil]
      rfl
    · have hlen1 : bs1.length ≤ n := by
        simp only [List.length_cons] at hlen
        omega
      by_cases h1 : b < 0x80
      · rw [valid_ascii b bs1 h1] at hv
        rw [List.cons_append, decode_ascii b _ h1, decode_ascii b bs1 h1,
          ih bs1 hlen1 hv rest]
        rfl
      · by_cases h2 : b < 0xC2
        · rw [valid_low_false b bs1 (by omega) h2] at hv
          exact absurd hv (by simp)
        · by_cases h3 : b < 0xE0
          · rcases bs1 with _ | ⟨b2, bs2⟩
            · rw [valid_two_end b (by omega) h3] at hv
              exact absurd hv (by simp)
            · have hlen2 : bs2.length ≤ n := by
                simp only [List.length_cons] at hlen1
                omega
              rw [valid_two b b2 bs2 (by omega) h3] at hv
              simp only [Bool.and_eq_true] at hv
              obtain ⟨hc, hv2⟩ := hv
              rw [List.cons_append, List.cons_append,
                decode_two_ok b b2 _ (by omega) h3 hc,
                decode_two_ok b b2 bs2 (by omega) h3 hc,
                ih bs2 hlen2 hv2 rest]
              rfl
          · by_cases h4 : b < 0xF0
            · rcases bs1 with _ | ⟨b2, bs2⟩
              · rw [valid_three_end1 b (by omega) h4] at hv
                exact absurd hv (by simp)
              · rcases bs2 with _ | ⟨b3, bs3⟩
                · rw [valid_three_end2 b b2 (by omega) h4] at hv
                  exact absurd hv (by simp)
                · have hlen3 : bs3.length ≤ n := by
                    simp only [List.length_cons] at hlen1
                    omega
                  rw [valid_three b b2 b3 bs3 (by omega) h4] at hv
                  simp only [Bool.and_eq_true] at hv
                  obtain ⟨⟨hc2, hc3⟩, hv3⟩ := hv
                  rw [List.cons_append, List.cons_append, List.cons_append,
                    decode_three_ok b b2 b3 _ (by omega) h4 hc2 hc3,
                    decode_three_ok b b2 b3 bs3 (by omega) h4 hc2 hc3,
                    ih bs3 hlen3 hv3 rest]
                  rfl
            · by_cases h5 : b < 0xF5
              · rcases bs1 with _ | ⟨b2, bs2⟩
                · rw [valid_four_end1 b (by omega) h5] at hv
                  exact absurd hv (by simp)
                · rcases bs2 with _ | ⟨b3, bs3⟩
                  · rw [valid_four_end2 b b2 (by omega) h5] at hv
                    exact absurd hv (by simp)
                  · rcases bs3 with _ | ⟨b4, bs4⟩
                    · rw [valid_four_end3 b b2 b3 (by omega) h5] at hv
                      exact absurd hv (by simp)
                    · have hlen4 : bs4.length ≤ n := by
                        simp only [List.length_cons] at hlen1
                        omega
                      rw [valid_four b b2 b3 b4 bs4 (by omega) h5] at hv
                      simp only [Bool.and_eq_true] at hv
                      obtain ⟨⟨⟨hc2, hc3⟩, hc4⟩, hv4⟩ := hv
                      rw [List.cons_append, List.cons_append, List.cons_append,
                        List.cons_append,
                        decode_four_ok b b2 b3 b4 _ (by omega) h5 hc2 hc3 hc4,
                        decode_four_ok b b2 b3 b4 bs4 (by omega) h5 hc2 hc3 hc4,
                        ih bs4 hlen4 hv4 rest]
                      rfl
              · rw [valid_high_false b bs1 (by omega)] at hv
                exact absurd hv (by simp)

theorem decode_append_of_valid (pre : List Nat) (hv : validUtf8 pre = true)
    (rest : List Nat) :
    pyDecodeUtf8Ignore (pre ++ rest) = pyDecodeUtf8Ignore pre ++ pyDecodeUtf8Ignore rest :=
  decode_append_of_valid_aux pre.length pre (Nat.le_refl _) hv rest

theorem decode_drop_invalid_run : ∀ (bad suf : List Nat),
    (∀ b ∈ bad, invalidByte b = true) →
    pyDecodeUtf8Ignore (bad ++ suf) = pyDecodeUtf8Ignore suf
  | [], _, _ => rfl
  | b :: bt, suf, h => by
    rw [List.cons_append, decode_drop_invalid b _ (h b (List.mem_cons_self _ _))]
    exact decode_drop_invalid_run bt suf (fun x hx => h x (List.mem_cons_of_mem _ hx))

theorem lastOpt_cons_some : ∀ (cs : List Nat) (c : Nat), ∃ p, lastOpt (c :: cs) = some p
  | [], c => ⟨c, by simp [lastOpt]⟩
  | d :: cs, c => by
    obtain ⟨p, hp⟩ := lastOpt_cons_some cs d
    exact ⟨p, by rw [lastOpt_cons_cons]; exact hp⟩

/-- C1: for every byte-sequence commit message, every occurrence of the
target token that stands as a whole word in the decoded text (any letter
case, bounded on the left by the start of text or a non-word character and on
the right by the end of text or a non-word character) is replaced by the
literal replacement cleanup inserted verbatim, while a token made only of
word characters that is not exactly the target is left untouched (so the
target embedded inside a longer word is never replaced). -/
theorem milo_word_replaced :
    (∀ (bs pre : List Nat) (c1 c2 c3 c4 : Nat) (suf : List Nat),
        pyDecodeUtf8Ignore bs = pre ++ [c1, c2, c3, c4] ++ suf →
        matchCharM c1 = true → matchCharI c2 = true → matchCharL c3 = true →
        matchCharO c4 = true →
        leftBound (lastOpt pre) = true → rightBound suf = true →
        transformMessage bs =
          utf8Encode (miloSub pre ++ cleanup ++ miloSubAux (some c4) suf)) ∧
    (∀ s : List Nat, (∀ x ∈ s, isWordChar x = true) → isMiloToken s = false →
        miloSub s = s) := by
  constructor
  · intro bs pre c1 c2 c3 c4 suf hdec hM hI hL hO hlb hrb
    unfold transformMessage
    rw [hdec]
    congr 1
    rcases pre with _ | ⟨q, pre1⟩
    · have hm : isMiloMatch none c1 c2 c3 c4 suf = true := by
        simp [isMiloMatch, hM, hI, hL, hO, leftBound, hrb]
      show miloSubAux none (c1 :: c2 :: c3 :: c4 :: suf) = _
      rw [miloSubAux_match _ _ _ _ _ _ hm]
      rfl
    · obtain ⟨p, hp⟩ := lastOpt_cons_some pre1 q
      rw [hp] at hlb
      have hpw : isWordChar p = false := by
        simpa [leftBound] using hlb
      rw [List.append_assoc]
      show miloSubAux none ((q :: pre1) ++ ([c1, c2, c3, c4] ++ suf)) = _
      rw [miloSubAux_cut (q :: pre1) none p ([c1, c2, c3, c4] ++ suf) hp hpw]
      have hm : isMiloMatch (some p) c1 c2 c3 c4 suf = true := by
        simp [isMiloMatch, hM, hI, hL, hO, leftBound, hpw, hrb]
      show miloSub (q :: pre1) ++ miloSubAux (some p) (c1 :: c2 :: c3 :: c4 :: suf) = _
      rw [miloSubAux_match _ _ _ _ _ _ hm]
      simp
  · intro s hall ht
    exact miloSubAux_of_no_occurrence s none (allword_no_occurrence s hall ht)

theorem milo_word_replaced_witness :
    transformMessage [0x46, 0x69, 0x78, 0x20, 0x4D, 0x69, 0x6C, 0x6F] =
      [0x46, 0x69, 0x78, 0x20, 0x63, 0x6C, 0x65, 0x61, 0x6E, 0x75, 0x70] ∧
    miloSub [0x6D, 0x69, 0x6C, 0x6F, 0x78] = [0x6D, 0x69, 0x6C, 0x6F, 0x78] := by
  constructor
  · have h := milo_word_replaced.1 [0x46, 0x69, 0x78, 0x20, 0x4D, 0x69, 0x6C, 0x6F]
      [0x46, 0x69, 0x78, 0x20] 0x4D 0x69 0x6C 0x6F [] (by decide) (by decide) (by decide)
      (by decide) (by decide) (by decide) (by decide)
    rw [h]
    decide
  · exact milo_word_replaced.2 [0x6D, 0x69, 0x6C, 0x6F, 0x78] (by decide) (by decide)

/-- C2: for every commit whose message is valid UTF-8 and whose decoded text
contains no whole-word case-insensitive occurrence of the target token, the
message field after the callback is byte-for-byte equal to the message field
before it: the decode and re-encode round trip reproduces the original bytes
exactly. -/
theorem no_match_roundtrip {α : Type} (c : Commit α)
    (h1 : validUtf8 c.message = true)
    (h2 : hasMiloOccurrence (pyDecodeUtf8Ignore c.message) = false) :
    (message_callback c).message = c.message := by
  show transformMessage c.message = c.message
  unfold transformMessage
  rw [show miloSub (pyDecodeUtf8Ignore c.message) = pyDecodeUtf8Ignore c.message from
    miloSubAux_of_no_occurrence _ none h2]
  exact encode_decode_of_valid _ h1

theorem no_match_roundtrip_witness :
    validUtf8 [0x68, 0x69, 0x20, 0x6D, 0x69, 0x6C, 0x6F, 0x78] = true ∧
    hasMiloOccurrence (pyDecodeUtf8Ignore [0x68, 0x69, 0x20, 0x6D, 0x69, 0x6C, 0x6F, 0x78]) =
      false ∧
    (message_callback (Commit.mk [0x68, 0x69, 0x20, 0x6D, 0x69, 0x6C, 0x6F, 0x78] ())).message =
      [0x68, 0x69, 0x20, 0x6D, 0x69, 0x6C, 0x6F, 0x78] :=
  ⟨by decide, by decide,
    no_match_roundtrip (Commit.mk [0x68, 0x69, 0x20, 0x6D, 0x69, 0x6C, 0x6F, 0x78] ())
      (by decide) (by decide)⟩

/-- C3: the callback is idempotent on every commit: running it a second time
leaves the message field (and hence the whole commit object) exactly as after
the first run, because the replacement token cleanup never matches the
target pattern and the decode of the re-encoded text reproduces it. -/
theorem callback_idempotent {α : Type} (c : Commit α) :
    message_callback (message_callback c) = message_callback c := by
  have key : transformMessage (transformMessage c.message) = transformMessage c.message := by
    unfold transformMessage
    have hsc : ∀ x ∈ miloSub (pyDecodeUtf8Ignore c.message), validScalar x = true :=
      miloSub_scalars _ (decode_scalars _)
    rw [decode_encode_id _ hsc]
    rw [show miloSub (miloSub (pyDecodeUtf8Ignore c.message)) =
        miloSub (pyDecodeUtf8Ignore c.message) from
      miloSubAux_idem (pyDecodeUtf8Ignore c.message) none]
  show Commit.mk (transformMessage (transformMessage c.message)) c.rest =
    Commit.mk (transformMessage c.message) c.rest
  rw [key]

/-- C4: for every input byte sequence, valid or not, the byte sequence the
callback stores back into the message field is valid UTF-8. -/
theorem output_valid_utf8 {α : Type} (c : Commit α) :
    validUtf8 ((message_callback c).message) = true := by
  show validUtf8 (transformMessage c.message) = true
  unfold transformMessage
  exact encode_valid _ (miloSub_scalars _ (decode_scalars _))

/-- C5: the callback is total and never surfaces an error to its caller: on
every input byte sequence, including malformed UTF-8, the fallible model of
the pipeline (in which the strict encoding step may raise on a lone
surrogate) succeeds and agrees with the total callback, because the
permissive decoder and the substitution only ever produce valid scalar
values. -/
theorem callback_total {α : Type} (c : Commit α) :
    message_callbackE c = some (message_callback c) := by
  unfold message_callbackE message_callback
  rw [utf8EncodeStrict_eq _ (miloSub_scalars _ (decode_scalars _))]
  rfl

/-- Decoder action on a dropped run: a run that `illFormedRun` accepts in
front of the following text is consumed entirely by the error handling, so
decoding resumes exactly at the following text. -/
theorem decode_illformed_run_aux : ∀ (n : Nat) (bad suf : List Nat), bad.length ≤ n →
    illFormedRun bad suf = true →
    pyDecodeUtf8Ignore (bad ++ suf) = pyDecodeUtf8Ignore suf := by
  intro n
  induction n with
  | zero =>
    intro bad suf hlen _
    have hnil : bad = [] := List.length_eq_zero.mp (Nat.le_zero.mp hlen)
    subst hnil
    rfl
  | succ n ih =>
    intro bad suf hlen h
    rcases bad with _ | ⟨b, bt⟩
    · rfl
    ·
        by_cases h1 : b < 0x80
        · rw [illFormedRun.eq_def] at h
          simp [h1] at h
        · by_cases h2 : b < 0xC2
          · rw [illFormedRun.eq_def] at h
            simp [h1, h2] at h
            show pyDecodeUtf8Ignore (b :: (bt ++ suf)) = _
            rw [decode_skip_low b _ (by omega) h2]
            exact ih bt suf (by simp only [List.length_cons] at hlen; omega) h
          · by_cases h3 : b < 0xE0
            · rw [illFormedRun.eq_def] at h
              simp [h1, h2, h3] at h
              obtain ⟨hch, hrec⟩ := h
              show pyDecodeUtf8Ignore (b :: (bt ++ suf)) = _
              rcases hbs : bt ++ suf with _ | ⟨x, r⟩
              · obtain ⟨hbt, hsuf⟩ := List.append_eq_nil.mp hbs
                subst hsuf
                rw [decode_two_end b (by omega) h3, decode_nil]
              · rw [hbs] at hch
                have hx : contOk x = false := by simpa [contHead] using hch
                rw [decode_two_bad b x r (by omega) h3 hx, ← hbs]
                exact ih bt suf (by simp only [List.length_cons] at hlen; omega) hrec
            · by_cases h4 : b < 0xF0
              · by_cases hc2 : cont2Head b (bt ++ suf) = true
                · rcases bt with _ | ⟨b2, bt2⟩
                  · simp only [List.nil_append] at hc2
                    rw [illFormedRun.eq_def] at h
                    simp [h1, h2, h3, h4, hc2] at h
                  · simp only [List.cons_append] at hc2
                    have hc2ok : cont2ok b b2 = true := by simpa [cont2Head] using hc2
                    rw [illFormedRun.eq_def] at h
                    simp [h1, h2, h3, h4, hc2] at h
                    obtain ⟨hch, hrec⟩ := h
                    show pyDecodeUtf8Ignore (b :: b2 :: (bt2 ++ suf)) = _
                    rcases hbs : bt2 ++ suf with _ | ⟨x, r⟩
                    · obtain ⟨hbt2, hsuf⟩ := List.append_eq_nil.mp hbs
                      subst hsuf
                      rw [decode_three_end2 b b2 (by omega) h4 hc2ok, decode_nil]
                    · rw [hbs] at hch
                      have hx : contOk x = false := by simpa [contHead] using hch
                      rw [decode_three_bad2 b b2 x r (by omega) h4 hc2ok hx, ← hbs]
                      exact ih bt2 suf (by simp only [List.length_cons] at hlen; omega) hrec
                · rw [illFormedRun.eq_def] at h
                  simp [h1, h2, h3, h4, hc2] at h
                  show pyDecodeUtf8Ignore (b :: (bt ++ suf)) = _
                  rcases hbs : bt ++ suf with _ | ⟨x, r⟩
                  · obtain ⟨hbt, hsuf⟩ := List.append_eq_nil.mp hbs
                    subst hsuf
                    rw [decode_three_end1 b (by omega) h4, decode_nil]
                  · rw [hbs] at hc2
                    have hx : cont2ok b x = false := by simpa [cont2Head] using hc2
                    rw [decode_three_bad1 b x r (by omega) h4 hx, ← hbs]
                    exact ih bt suf (by simp only [List.length_cons] at hlen; omega) h
              · by_cases h5 : b < 0xF5
                · by_cases hc3 : cont3Head b (bt ++ suf) = true
                  · rcases bt with _ | ⟨b2, bt2⟩
                    · simp only [List.nil_append] at hc3
                      rw [illFormedRun.eq_def] at h
                      simp [h1, h2, h3, h4, h5, hc3] at h
                    · simp only [List.cons_append] at hc3
                      have hc3ok : cont3ok b b2 = true := by simpa [cont3Head] using hc3
                      by_cases hch2 : contHead (bt2 ++ suf) = true
                      · rcases bt2 with _ | ⟨b3, bt3⟩
                        · simp only [List.nil_append] at hc3 hch2
                          rw [illFormedRun.eq_def] at h
                          simp [h1, h2, h3, h4, h5, hc3, hch2] at h
                        · simp only [List.cons_append] at hc3 hch2
                          have hc3b : contOk b3 = true := by simpa [contHead] using hch2
                          rw [illFormedRun.eq_def] at h
                          simp [h1, h2, h3, h4, h5, hc3, hch2] at h
                          obtain ⟨hch, hrec⟩ := h
                          show pyDecodeUtf8Ignore (b :: b2 :: b3 :: (bt3 ++ suf)) = _
                          rcases hbs : bt3 ++ suf with _ | ⟨x, r⟩
                          · obtain ⟨hbt3, hsuf⟩ := List.append_eq_nil.mp hbs
                            subst hsuf
                            rw [decode_four_end3 b b2 b3 (by omega) h5 hc3ok hc3b, decode_nil]
                          · rw [hbs] at hch
                            have hx : contOk x = false := by simpa [contHead] using hch
                            rw [decode_four_bad3 b b2 b3 x r (by omega) h5 hc3ok hc3b hx,
                              ← hbs]
                            exact ih bt3 suf (by simp only [List.length_cons] at hlen; omega) hrec
                      · rw [illFormedRun.eq_def] at h
                        simp [h1, h2, h3, h4, h5, hc3, hch2] at h
                        show pyDecodeUtf8Ignore (b :: b2 :: (bt2 ++ suf)) = _
                        rcases hbs : bt2 ++ suf with _ | ⟨x, r⟩
                        · obtain ⟨hbt2, hsuf⟩ := List.append_eq_nil.mp hbs
                          subst hsuf
                          rw [decode_four_end2 b b2 (by omega) h5 hc3ok, decode_nil]
                        · rw [hbs] at hch2
                          have hx : contOk x = false := by simpa [contHead] using hch2
                          rw [decode_four_bad2 b b2 x r (by omega) h5 hc3ok hx, ← hbs]
                          exact ih bt2 suf (by simp only [List.length_cons] at hlen; omega) h
                  · rw [illFormedRun.eq_def] at h
                    simp [h1, h2, h3, h4, h5, hc3] at h
                    show pyDecodeUtf8Ignore (b :: (bt ++ suf)) = _
                    rcases hbs : bt ++ suf with _ | ⟨x, r⟩
                    · obtain ⟨hbt, hsuf⟩ := List.append_eq_nil.mp hbs
                      subst hsuf
                      rw [decode_four_end1 b (by omega) h5, decode_nil]
                    · rw [hbs] at hc3
                      have hx : cont3ok b x = false := by simpa [cont3Head] using hc3
                      rw [decode_four_bad1 b x r (by omega) h5 hx, ← hbs]
                      exact ih bt suf (by simp only [List.length_cons] at hlen; omega) h
                · rw [illFormedRun.eq_def] at h
                  simp [h1, h2, h3, h4, h5] at h
                  show pyDecodeUtf8Ignore (b :: (bt ++ suf)) = _
                  rw [decode_skip_high b _ (by omega)]
                  exact ih bt suf (by simp only [List.length_cons] at hlen; omega) h

theorem decode_illformed_run (bad suf : List Nat) (h : illFormedRun bad suf = true) :
    pyDecodeUtf8Ignore (bad ++ suf) = pyDecodeUtf8Ignore suf :=
  decode_illformed_run_aux bad.length bad suf (Nat.le_refl _) h

/-- C6: byte subsequences that are not valid UTF-8 — stray continuation
bytes, invalid lead bytes, and truncated multi-byte sequences whose required
continuation never arrives — are silently dropped from the decoded text (not
substituted), while the surrounding valid text decodes exactly as it would
alone. -/
theorem invalid_bytes_dropped (pre bad suf : List Nat)
    (hpre : validUtf8 pre = true) (hbad : illFormedRun bad suf = true) :
    pyDecodeUtf8Ignore (pre ++ bad ++ suf) =
      pyDecodeUtf8Ignore pre ++ pyDecodeUtf8Ignore suf := by
  rw [List.append_assoc, decode_append_of_valid pre hpre (bad ++ suf),
    decode_illformed_run bad suf hbad]

theorem invalid_bytes_dropped_witness :
    (validUtf8 [0x61] = true ∧ illFormedRun [0xC2] [0x62] = true ∧
      pyDecodeUtf8Ignore ([0x61] ++ [0xC2] ++ [0x62]) =
        pyDecodeUtf8Ignore [0x61] ++ pyDecodeUtf8Ignore [0x62]) ∧
    (illFormedRun [0xE0, 0xA0] [0x62] = true ∧
      pyDecodeUtf8Ignore ([0x61] ++ [0xE0, 0xA0] ++ [0x62]) =
        pyDecodeUtf8Ignore [0x61] ++ pyDecodeUtf8Ignore [0x62]) ∧
    (illFormedRun [0xFF] [0x62] = true ∧
      pyDecodeUtf8Ignore ([0x61] ++ [0xFF] ++ [0x62]) =
        pyDecodeUtf8Ignore [0x61] ++ pyDecodeUtf8Ignore [0x62]) :=
  ⟨⟨by decide, by decide,
      invalid_bytes_dropped [0x61] [0xC2] [0x62] (by decide) (by decide)⟩,
    ⟨by decide,
      invalid_bytes_dropped [0x61] [0xE0, 0xA0] [0x62] (by decide) (by decide)⟩,
    ⟨by decide,
      invalid_bytes_dropped [0x61] [0xFF] [0x62] (by decide) (by decide)⟩⟩

/-- C7: on the message milo-testing and MILO_FLAG the callback produces
cleanup-testing and MILO_FLAG: the hyphen is a word boundary, so the token
before it is replaced, while the underscore is a word character, so
MILO_FLAG is one word token and is not replaced. -/
theorem hyphen_vs_underscore :
    (message_callback (Commit.mk
      [0x6D, 0x69, 0x6C, 0x6F, 0x2D, 0x74, 0x65, 0x73, 0x74, 0x69, 0x6E, 0x67, 0x20,
        0x61, 0x6E, 0x64, 0x20, 0x4D, 0x49, 0x4C, 0x4F, 0x5F, 0x46, 0x4C, 0x41, 0x47]
      ())).message =
      [0x63, 0x6C, 0x65, 0x61, 0x6E, 0x75, 0x70, 0x2D, 0x74, 0x65, 0x73, 0x74, 0x69,
        0x6E, 0x67, 0x20, 0x61, 0x6E, 0x64, 0x20, 0x4D, 0x49, 0x4C, 0x4F, 0x5F, 0x46,
        0x4C, 0x41, 0x47] := by
  decide

/-- C8: the callback's only effect on the caller-supplied commit object is
the single assignment of the transformed bytes to the same message field it
read from; every other field (the abstracted remainder of the object) is
unchanged. -/
theorem frame_effect {α : Type} (c : Commit α) :
    (message_callback c).rest = c.rest ∧
    (message_callback c).message = transformMessage c.message :=
  ⟨rfl, rfl⟩

/-- C9: because invalid bytes are dropped before pattern matching, an input
that nowhere contains the bytes of the target token (in any letter case) as
a contiguous substring can still produce the replacement: the five bytes
m i 0xFF l o decode to the bare target word and are replaced, so the output
contains cleanup. -/
theorem dropped_byte_creates_match :
    containsMiloBytes [0x6D, 0x69, 0xFF, 0x6C, 0x6F] = false ∧
    containsSeq cleanup (transformMessage [0x6D, 0x69, 0xFF, 0x6C, 0x6F]) = true := by
  decide

/-- C10: word characters are Unicode-wide, not ASCII-only: whenever the
character immediately after the target token is a non-ASCII word character
(such as the letter at 0xE9), the right word boundary fails, the match
attempt is rejected, and in particular the bare text followed by such a
character is left unchanged by the substitution. -/
theorem unicode_word_blocks_match :
    (∀ (prev : Option Nat) (c1 c2 c3 c4 w : Nat) (suf : List Nat),
        0x80 ≤ w → isWordChar w = true →
        isMiloMatch prev c1 c2 c3 c4 (w :: suf) = false) ∧
    (∀ w : Nat, 0x80 ≤ w → isWordChar w = true →
        miloSub [0x6D, 0x69, 0x6C, 0x6F, w] = [0x6D, 0x69, 0x6C, 0x6F, w]) := by
  constructor
  · intro prev c1 c2 c3 c4 w suf _ hw
    simp [isMiloMatch, rightBound, hw]
  · intro w _ hw
    have h1 : isMiloMatch none 0x6D 0x69 0x6C 0x6F [w] = false := by
      simp [isMiloMatch, rightBound, hw]
    show miloSubAux none [0x6D, 0x69, 0x6C, 0x6F, w] = _
    rw [miloSubAux_skip _ _ _ (by simp only [headMatch]; exact h1)]
    rw [miloSubAux_skip _ _ _ (headMatch_cons_notM _ _ _ (by decide))]
    rw [miloSubAux_short _ _ (by simp)]

theorem unicode_word_blocks_match_witness :
    isMiloMatch none 0x6D 0x69 0x6C 0x6F [0xE9] = false ∧
    miloSub [0x6D, 0x69, 0x6C, 0x6F, 0xE9] = [0x6D, 0x69, 0x6C, 0x6F, 0xE9] :=
  ⟨unicode_word_blocks_match.1 none 0x6D 0x69 0x6C 0x6F 0xE9 [] (by decide) (by decide),
    unicode_word_blocks_match.2 0xE9 (by decide) (by decide)⟩
